import Mathlib

set_option maxHeartbeats 1000000
set_option linter.unusedVariables false

/-!
Verification of the Telegram appointment bot (`bot.py`, `db.py`).

The development shallowly embeds the two source files:
* `db.py` — a relational store with three tables (`patients`,
  `telegram_identities`, `appointments`) modelled as Lean lists, and its four
  operations used by the bot, modelled as pure functions on a `DB` record.
* `bot.py` — the two text parsers (`_parse_dt`, `_parse_birth_date`, which call
  Python's `datetime.strptime` on fixed format strings) and the conversation
  handlers (`ask_passport`, `ask_bdate`, `ask_time`, `book`, `my`, `link`,
  `cancel`, `_route_button`), modelled as pure functions from the incoming
  message and store state to a turn result (replies sent, next conversation
  state, scratch `user_data`, new store state, and whether an uncaught
  exception aborted the turn).
-/

/-! ## Python string helpers

`str.strip()` and the `\s`/`\d` character classes of `re`/`strptime` are
modelled on ASCII whitespace/digits (the inputs of interest are ASCII apart
from the fixed menu-button labels, which contain no digits or border
whitespace). -/

def myIsDigit (ch : Char) : Bool :=
  48 ≤ ch.toNat && ch.toNat ≤ 57

def digitVal (ch : Char) : Nat :=
  ch.toNat - 48

/-- The character `'0' + n` (for `n ≤ 9`; clamped at `'9'`). -/
def digitCh (n : Nat) : Char :=
  match n with
  | 0 => '0' | 1 => '1' | 2 => '2' | 3 => '3' | 4 => '4'
  | 5 => '5' | 6 => '6' | 7 => '7' | 8 => '8' | _ => '9'

def isPySpace (ch : Char) : Bool :=
  ch == ' ' || ch == '\t' || ch == '\n' || ch == '\r' || ch.toNat == 11 || ch.toNat == 12

/-- Drop trailing characters satisfying `isPySpace`. -/
def dropTrail : List Char → List Char
  | [] => []
  | a :: rest =>
    let r := dropTrail rest
    if r.isEmpty && isPySpace a then [] else a :: r

/-- Python `str.strip()` on a character list. -/
def pyStripList (l : List Char) : List Char :=
  dropTrail (l.dropWhile isPySpace)

/-- Python `str.strip()`. -/
def pyStrip (s : String) : String :=
  ⟨pyStripList s.data⟩

/-- Two zero-padded decimal digits (`"%02d"`, for values `≤ 99`). -/
def pad2L (n : Nat) : List Char :=
  [digitCh (n / 10 % 10), digitCh (n % 10)]

/-- Four zero-padded decimal digits (`"%04d"`, for values `≤ 9999`). -/
def pad4L (n : Nat) : List Char :=
  [digitCh (n / 1000 % 10), digitCh (n / 100 % 10), digitCh (n / 10 % 10), digitCh (n % 10)]

def pad2 (n : Nat) : String := ⟨pad2L n⟩

def pad4 (n : Nat) : String := ⟨pad4L n⟩

/-! ## Calendar and datetimes -/

def isLeap (y : Nat) : Bool :=
  (y % 4 == 0 && y % 100 != 0) || y % 400 == 0

def daysInMonth (y m : Nat) : Nat :=
  if m == 2 then (if isLeap y then 29 else 28)
  else if m == 4 || m == 6 || m == 9 || m == 11 then 30
  else 31

/-- A naive `datetime.datetime` (microseconds are always zero here). -/
structure DateTime where
  year : Nat
  month : Nat
  day : Nat
  hour : Nat
  minute : Nat
  second : Nat
deriving Repr, DecidableEq

/-- The validity checks of the `datetime` constructor (`MINYEAR`/`MAXYEAR`,
month, day-of-month, and time ranges). -/
def DateTime.valid (n : DateTime) : Bool :=
  Nat.ble 1 n.year && Nat.ble n.year 9999 &&
  Nat.ble 1 n.month && Nat.ble n.month 12 &&
  Nat.ble 1 n.day && Nat.ble n.day (daysInMonth n.year n.month) &&
  Nat.ble n.hour 23 && Nat.ble n.minute 59 && Nat.ble n.second 59

/-- Strict `<` on datetimes carrying the same fixed zone: lexicographic on the
naive fields, exactly how Python compares two aware datetimes whose UTC
offsets agree. -/
def dtLt (a b : DateTime) : Bool :=
  Nat.blt a.year b.year || (a.year == b.year &&
    (Nat.blt a.month b.month || (a.month == b.month &&
      (Nat.blt a.day b.day || (a.day == b.day &&
        (Nat.blt a.hour b.hour || (a.hour == b.hour &&
          (Nat.blt a.minute b.minute || (a.minute == b.minute &&
            Nat.blt a.second b.second)))))))))

/-- An aware datetime: naive fields plus a fixed UTC offset in minutes.
`bot.py` anchors every parsed time in `ZoneInfo("Asia/Yakutsk")`, which is
UTC+9 (540 minutes, no DST) throughout the era relevant to the program. -/
structure AwareDT where
  naive : DateTime
  offsetMinutes : Int
deriving Repr, DecidableEq

def yakutskOffsetMinutes : Int := 540

def offsetStr (m : Int) : String :=
  if m < 0 then "-" ++ pad2 ((-m).toNat / 60) ++ ":" ++ pad2 ((-m).toNat % 60)
  else "+" ++ pad2 (m.toNat / 60) ++ ":" ++ pad2 (m.toNat % 60)

/-- Python `datetime.isoformat()` of an aware datetime with zero microseconds:
`YYYY-MM-DDTHH:MM:SS+HH:MM`. -/
def isoformatAware (aw : AwareDT) : String :=
  pad4 aw.naive.year ++ "-" ++ pad2 aw.naive.month ++ "-" ++ pad2 aw.naive.day ++ "T" ++
  pad2 aw.naive.hour ++ ":" ++ pad2 aw.naive.minute ++ ":" ++ pad2 aw.naive.second ++
  offsetStr aw.offsetMinutes

/-- Python `date.isoformat()`: `YYYY-MM-DD`. -/
def isoDate (y mo d : Nat) : String :=
  pad4 y ++ "-" ++ pad2 mo ++ "-" ++ pad2 d

/-! ## `strptime` on the fixed formats of `bot.py`

CPython's `_strptime` compiles `%Y` to exactly four digits and `%m`, `%d`,
`%H`, `%M`, `%S` to one-or-two-digit numbers in their ranges; a literal space
in the format becomes `\s+`; the whole input must be consumed; the resulting
fields then pass through the `datetime` constructor, which enforces the
calendar checks in `DateTime.valid` (this also turns the leap seconds 60/61
admitted by the `%S` pattern into a `ValueError`, i.e. a failed parse).
Because every field is followed by a non-digit delimiter or the end of the
input, a two-digit number must consume both digits; the parsers below use
that to avoid regex backtracking. -/

def takeNum12 : List Char → Option (Nat × List Char)
  | c1 :: c2 :: rest =>
    if myIsDigit c1 then
      if myIsDigit c2 then some (10 * digitVal c1 + digitVal c2, rest)
      else some (digitVal c1, c2 :: rest)
    else none
  | [c1] => if myIsDigit c1 then some (digitVal c1, []) else none
  | [] => none

def takeNum4 : List Char → Option (Nat × List Char)
  | a :: b :: e :: d :: rest =>
    if myIsDigit a && myIsDigit b && myIsDigit e && myIsDigit d then
      some (1000 * digitVal a + 100 * digitVal b + 10 * digitVal e + digitVal d, rest)
    else none
  | _ => none

def lit (ch : Char) : List Char → Option (List Char)
  | x :: rest => if x == ch then some rest else none
  | [] => none

/-- `\s+`: one or more whitespace characters, matched greedily. -/
def ws1 : List Char → Option (List Char)
  | x :: rest => if isPySpace x then some (rest.dropWhile isPySpace) else none
  | [] => none

/-- `datetime.strptime` with format `"%Y-%m-%d %H:%M"` (`withSec = false`) or
`"%Y-%m-%d %H:%M:%S"` (`withSec = true`). -/
def strptimeYMD (withSec : Bool) (l : List Char) : Option DateTime :=
  match takeNum4 l with
  | none => none
  | some (y, l) =>
  match lit '-' l with
  | none => none
  | some l =>
  match takeNum12 l with
  | none => none
  | some (mo, l) =>
  match lit '-' l with
  | none => none
  | some l =>
  match takeNum12 l with
  | none => none
  | some (d, l) =>
  match ws1 l with
  | none => none
  | some l =>
  match takeNum12 l with
  | none => none
  | some (h, l) =>
  match lit ':' l with
  | none => none
  | some l =>
  match takeNum12 l with
  | none => none
  | some (mi, l) =>
  match (if withSec then
           match lit ':' l with
           | none => none
           | some l => takeNum12 l
         else some (0, l)) with
  | none => none
  | some (s, l) =>
    if l.isEmpty && (DateTime.mk y mo d h mi s).valid then
      some (DateTime.mk y mo d h mi s)
    else none

/-- `datetime.strptime` with format `"%d.%m.%Y %H:%M"` (`withSec = false`) or
`"%d.%m.%Y %H:%M:%S"` (`withSec = true`). -/
def strptimeDMY (withSec : Bool) (l : List Char) : Option DateTime :=
  match takeNum12 l with
  | none => none
  | some (d, l) =>
  match lit '.' l with
  | none => none
  | some l =>
  match takeNum12 l with
  | none => none
  | some (mo, l) =>
  match lit '.' l with
  | none => none
  | some l =>
  match takeNum4 l with
  | none => none
  | some (y, l) =>
  match ws1 l with
  | none => none
  | some l =>
  match takeNum12 l with
  | none => none
  | some (h, l) =>
  match lit ':' l with
  | none => none
  | some l =>
  match takeNum12 l with
  | none => none
  | some (mi, l) =>
  match (if withSec then
           match lit ':' l with
           | none => none
           | some l => takeNum12 l
         else some (0, l)) with
  | none => none
  | some (s, l) =>
    if l.isEmpty && (DateTime.mk y mo d h mi s).valid then
      some (DateTime.mk y mo d h mi s)
    else none

/-- `datetime.strptime(text, "%d.%m.%Y").date()` as a `(y, mo, d)` triple. -/
def strptimeDateDMY (l : List Char) : Option (Nat × Nat × Nat) :=
  match takeNum12 l with
  | none => none
  | some (d, l) =>
  match lit '.' l with
  | none => none
  | some l =>
  match takeNum12 l with
  | none => none
  | some (mo, l) =>
  match lit '.' l with
  | none => none
  | some l =>
  match takeNum4 l with
  | none => none
  | some (y, l) =>
    if l.isEmpty && (DateTime.mk y mo d 0 0 0).valid then some (y, mo, d) else none

/-- `datetime.strptime(text, "%Y-%m-%d").date()` as a `(y, mo, d)` triple. -/
def strptimeDateYMD (l : List Char) : Option (Nat × Nat × Nat) :=
  match takeNum4 l with
  | none => none
  | some (y, l) =>
  match lit '-' l with
  | none => none
  | some l =>
  match takeNum12 l with
  | none => none
  | some (mo, l) =>
  match lit '-' l with
  | none => none
  | some l =>
  match takeNum12 l with
  | none => none
  | some (d, l) =>
    if l.isEmpty && (DateTime.mk y mo d 0 0 0).valid then some (y, mo, d) else none

/-- `bot.py`'s `_parse_dt`: strip, then try the four formats in order, first
match wins, and anchor the naive result in the fixed UTC+9 zone
(`dt_naive.replace(tzinfo=TZ)`). -/
def _parse_dt (text : String) : Option AwareDT :=
  let l := pyStripList text.data
  match strptimeYMD false l with
  | some n => some ⟨n, yakutskOffsetMinutes⟩
  | none =>
  match strptimeYMD true l with
  | some n => some ⟨n, yakutskOffsetMinutes⟩
  | none =>
  match strptimeDMY false l with
  | some n => some ⟨n, yakutskOffsetMinutes⟩
  | none =>
  match strptimeDMY true l with
  | some n => some ⟨n, yakutskOffsetMinutes⟩
  | none => none

/-- `bot.py`'s `_parse_birth_date`: strip, try `"%d.%m.%Y"` then `"%Y-%m-%d"`,
and return `d.isoformat()` of the first success. -/
def _parse_birth_date (text : String) : Option String :=
  let l := pyStripList text.data
  match strptimeDateDMY l with
  | some (y, mo, d) => some (isoDate y mo d)
  | none =>
  match strptimeDateYMD l with
  | some (y, mo, d) => some (isoDate y mo d)
  | none => none

/-- Modelled from the spec: a strict, literal reading of the four formats
`YYYY-MM-DD HH:MM`, `YYYY-MM-DD HH:MM:SS`, `DD.MM.YYYY HH:MM`,
`DD.MM.YYYY HH:MM:SS` — every field zero-padded to the pictured width and a
single space between date and time. `'N'` in a pattern stands for one digit;
every other pattern character is literal. -/
def strictShape : List Char → List Char → Bool
  | [], [] => true
  | 'N' :: pr, c :: sr => myIsDigit c && strictShape pr sr
  | p :: pr, c :: sr => (p == c) && strictShape pr sr
  | _, _ => false

/-- Modelled from the spec: membership of the trimmed input in one of the four
literal appointment formats, read strictly. -/
def specStrictMatchDT (s : String) : Bool :=
  ["NNNN-NN-NN NN:NN".data, "NNNN-NN-NN NN:NN:NN".data,
   "NN.NN.NNNN NN:NN".data, "NN.NN.NNNN NN:NN:NN".data].any
    (fun pat => strictShape pat (pyStripList s.data))

example : _parse_dt "2026-02-25 14:30" = some ⟨⟨2026, 2, 25, 14, 30, 0⟩, 540⟩ := by decide
example : _parse_dt "2026-02-25 14:30:00" = some ⟨⟨2026, 2, 25, 14, 30, 0⟩, 540⟩ := by decide
example : _parse_dt "25.02.2026 14:30" = some ⟨⟨2026, 2, 25, 14, 30, 0⟩, 540⟩ := by decide
example : _parse_dt " 25.02.2026 14:30:05 " = some ⟨⟨2026, 2, 25, 14, 30, 5⟩, 540⟩ := by decide
example : _parse_dt "2026-2-5 14:30" = some ⟨⟨2026, 2, 5, 14, 30, 0⟩, 540⟩ := by decide
example : _parse_dt "not a date" = none := by decide
example : _parse_dt "2026-13-01 10:00" = none := by decide
example : _parse_dt "2026-02-30 10:00" = none := by decide
example : _parse_dt "2026-02-25 24:30" = none := by decide
example : _parse_birth_date "25.02.1999" = some "1999-02-25" := by decide
example : _parse_birth_date "1999-02-25" = some "1999-02-25" := by decide
example : _parse_birth_date "29.02.1999" = none := by decide
example : specStrictMatchDT "2026-02-25 14:30" = true := by decide
example : specStrictMatchDT "2026-2-5 14:30" = false := by decide

/-! ## The data store (`db.py`)

The three tables are lists of rows.  `patients` is owned by the main project
and only read here.  `telegram_identities` has primary key `tg_id` and a CHECK
constraint that exactly one of `patient_id`/`user_id` is set; `appointments`
carries a partial unique index on non-null `patient_id` (the serial `id`
column is never consulted by the bot and is not modelled).  `now()` timestamps
are abstract `Nat` instants. -/

structure Patient where
  id : Nat
  fio : String
  passport : String
  birth_date : String
deriving Repr, DecidableEq

structure Identity where
  tg_id : Nat
  patient_id : Option Nat
  user_id : Option Nat
  telegram_username : Option String
  verified_at : Option Nat
  created_at : Nat
deriving Repr, DecidableEq

structure Appointment where
  tg_id : Nat
  fio : String
  appointment : String
  patient_id : Option Nat
  created_by_tg_id : Option Nat
  updated_at : Nat
deriving Repr, DecidableEq

structure DB where
  patients : List Patient
  identities : List Identity
  appointments : List Appointment
deriving Repr, DecidableEq

/-- `db.py`'s `get_identity`: `SELECT ... FROM telegram_identities WHERE tg_id=%s`. -/
def get_identity (db : DB) (tg_id : Nat) : Option Identity :=
  db.identities.find? (fun r => r.tg_id == tg_id)

/-- `db.py`'s `link_patient_by_passport_and_birthdate`: strip the passport,
`SELECT id, fio FROM patients WHERE passport = %s AND birth_date = %s LIMIT 1`;
on no match return `None` with no write; on a match,
`INSERT INTO telegram_identities ... ON CONFLICT (tg_id) DO UPDATE SET
patient_id = EXCLUDED.patient_id, user_id = NULL, telegram_username =
EXCLUDED.telegram_username, verified_at = now()`.  Returns the found patient
and the updated store. -/
def link_patient_by_passport_and_birthdate (db : DB) (tg_id : Nat)
    (telegram_username : Option String) (passport : String) (birth_date_iso : String)
    (now : Nat) : Option Patient × DB :=
  let passport := pyStrip passport
  match db.patients.find? (fun pt => pt.passport == passport && pt.birth_date == birth_date_iso) with
  | none => (none, db)
  | some patient =>
    let upd := fun (r : Identity) =>
      { r with patient_id := some patient.id, user_id := none,
               telegram_username := telegram_username, verified_at := some now }
    let identities :=
      if db.identities.any (fun r => r.tg_id == tg_id) then
        db.identities.map (fun r => if r.tg_id == tg_id then upd r else r)
      else
        db.identities ++ [{ tg_id := tg_id, patient_id := some patient.id, user_id := none,
                            telegram_username := telegram_username, verified_at := some now,
                            created_at := now }]
    (some patient, { db with identities := identities })

/-- The PostgreSQL failure this embedding distinguishes. -/
inductive PgError where
  /-- Error 42P10, `there is no unique or exclusion constraint matching the ON
  CONFLICT specification`: no arbiter index can be inferred for the statement's
  conflict target. -/
  | onConflictNoArbiter
deriving Repr, DecidableEq

/-- `db.py`'s `upsert_appointment_for_patient`:
`INSERT INTO appointments (patient_id, tg_id, fio, appointment, created_by_tg_id,
updated_at) VALUES (...) ON CONFLICT (patient_id) DO UPDATE SET ...`.
The schema gives `appointments.patient_id` only the partial unique index
`appointments_patient_id_uq ... WHERE patient_id IS NOT NULL` (`init_db`), and a
partial unique index can serve as an ON CONFLICT arbiter only when the conflict
target repeats the index predicate; this statement's target `(patient_id)` does
not, so PostgreSQL finds no arbiter and raises 42P10 while planning the INSERT —
on every call, before any row is read or written (in particular before the
table's `tg_id UNIQUE NOT NULL` constraint could ever be checked).  The call
always fails with the store untouched; the intended keyed insert-or-replace is
dead code. -/
def upsert_appointment_for_patient (db : DB) (patient_id : Nat) (tg_id : Nat)
    (fio : String) (appointment_iso : String) (now : Nat) : Except PgError DB :=
  Except.error PgError.onConflictNoArbiter

/-- `db.py`'s `get_my_appointment`: `SELECT a.* FROM appointments a JOIN
telegram_identities ti ON ti.patient_id = a.patient_id WHERE ti.tg_id = %s
LIMIT 1` (the SQL equality join rejects NULL `patient_id` on either side). -/
def get_my_appointment (db : DB) (tg_id : Nat) : Option Appointment :=
  db.appointments.find? (fun a =>
    db.identities.any (fun ti =>
      ti.tg_id == tg_id && a.patient_id.isSome && ti.patient_id == a.patient_id))

/-- The CHECK constraint `telegram_identities_one_identity` of `init_db`:
exactly one of `patient_id`/`user_id` is set. -/
def identityRowOk (r : Identity) : Bool :=
  (r.patient_id.isSome && r.user_id.isNone) || (r.patient_id.isNone && r.user_id.isSome)

/-- Number of identity rows for a chat user (`tg_id` is the primary key, so
this is at most 1 in any legal store). -/
def idCount (db : DB) (t : Nat) : Nat :=
  (db.identities.filter (fun r => r.tg_id == t)).length

/-! ## The conversation engine (`bot.py`)

Replies are abstracted to their identity (which message was sent, with the
data interpolated into it); rendering the Russian text is presentation.  A
turn that hits the store while it is unreachable raises inside the handler
(`get_conn` raising, or `psycopg` failing to connect); no handler catches
exceptions, so the turn aborts: `errored` records that, with the replies sent
before the raise (none, on every such path) and the store untouched.
`python-telegram-bot` leaves the conversation state unchanged when a state
handler raises, which `effectiveState` makes explicit. -/

inductive Reply where
  | myNoIdentity
  | myNoAppt
  | myAppt (fio : String) (appt : String)
  | linkPrompt
  | badPassport
  | bdatePrompt
  | badBdate
  | linkNotFound
  | linkDone (fio : String)
  | bookNeedLink
  | bookPrompt
  | badDT
  | pastDT
  | lostBinding
  | bookDone (dt : DateTime)
  | cancelAck
deriving Repr, DecidableEq

/-- A store access attempted by `my` (used to state that the no-identity path
never touches the appointment store). -/
inductive Access where
  | identRead (tg : Nat)
  | apptRead (tg : Nat)
deriving Repr, DecidableEq

/-- Conversation states: `ConversationHandler.END` is `idle`; the rest are
`ASK_PASSPORT`, `ASK_BDATE`, `ASK_TIME`. -/
inductive ConvState where
  | idle
  | askPassport
  | askBdate
  | askTime
deriving Repr, DecidableEq

/-- Per-turn ambient data: whether the store is reachable, the chat user and
their display handle, the wall clock `datetime.now(TZ)` (naive fields in the
fixed zone), and the store-side `now()` instant. -/
structure Ctx where
  dbUp : Bool
  tg : Nat
  username : Option String
  nowDT : DateTime
  dbNow : Nat
deriving Repr, DecidableEq

structure TurnResult where
  replies : List Reply
  state : ConvState
  scratch : Option String
  db : DB
  errored : Bool
deriving Repr, DecidableEq

structure MyResult where
  replies : List Reply
  accesses : List Access
  errored : Bool
deriving Repr, DecidableEq

/-- The conversation state after a turn: unchanged when the handler raised. -/
def effectiveState (incoming : ConvState) (r : TurnResult) : ConvState :=
  if r.errored then incoming else r.state

/-- Python truthiness of `identity.get("patient_id")`: `None` and `0` are
falsy. -/
def truthyOpt : Option Nat → Bool
  | none => false
  | some n => n != 0

def BTN_BOOK : String := "📅 Записаться"
def BTN_MY : String := "📄 Моя запись"
def BTN_LINK : String := "🔗 Привязать аккаунт"
def BTN_CANCEL : String := "❌ Отмена"

/-- The `BUTTON_TO_CMD` label table. -/
def BUTTON_TO_CMD (t : String) : Option String :=
  if t == BTN_BOOK then some "book"
  else if t == BTN_MY then some "my"
  else if t == BTN_LINK then some "link"
  else if t == BTN_CANCEL then some "cancel"
  else none

/-- `re.fullmatch(r"\d{4} \d{6}", text)`: four digits, a space, six digits. -/
def passportRe (s : String) : Bool :=
  match s.data with
  | [a, b, e, d, sp, f, g, h, i, j] =>
    myIsDigit a && myIsDigit b && myIsDigit e && myIsDigit d && sp == ' ' &&
    myIsDigit f && myIsDigit g && myIsDigit h && myIsDigit i && myIsDigit j
  | _ => false

/-- `bot.py`'s `my`: read the identity; without a (truthy) `patient_id`, reply
the redirect-to-link message; otherwise read the appointment via the join and
render it or report that none exists.  (The stored `appointment` value is the
ISO string the bot wrote, hence the `isinstance(appt, str)` branch applies.) -/
def my (c : Ctx) (db : DB) : MyResult :=
  if !c.dbUp then ⟨[], [Access.identRead c.tg], true⟩
  else
    match get_identity db c.tg with
    | none => ⟨[Reply.myNoIdentity], [Access.identRead c.tg], false⟩
    | some r =>
      if !truthyOpt r.patient_id then ⟨[Reply.myNoIdentity], [Access.identRead c.tg], false⟩
      else
        match get_my_appointment db c.tg with
        | none => ⟨[Reply.myNoAppt], [Access.identRead c.tg, Access.apptRead c.tg], false⟩
        | some row =>
          ⟨[Reply.myAppt row.fio row.appointment],
           [Access.identRead c.tg, Access.apptRead c.tg], false⟩

/-- `bot.py`'s `link` command handler: prompt for the passport and move to
`ASK_PASSPORT`. -/
def link (c : Ctx) (db : DB) (scratch : Option String) : TurnResult :=
  ⟨[Reply.linkPrompt], ConvState.askPassport, scratch, db, false⟩

/-- `bot.py`'s `cancel`: clear `user_data`, acknowledge, end the flow. -/
def cancel (c : Ctx) (db : DB) (scratch : Option String) : TurnResult :=
  ⟨[Reply.cancelAck], ConvState.idle, none, db, false⟩

/-- `bot.py`'s `book` command handler: without a (truthy) bound `patient_id`,
redirect to linking and end; otherwise prompt for the time and move to
`ASK_TIME`. -/
def book (c : Ctx) (db : DB) (scratch : Option String) : TurnResult :=
  if !c.dbUp then ⟨[], ConvState.idle, scratch, db, true⟩
  else
    match get_identity db c.tg with
    | none => ⟨[Reply.bookNeedLink], ConvState.idle, scratch, db, false⟩
    | some r =>
      if !truthyOpt r.patient_id then ⟨[Reply.bookNeedLink], ConvState.idle, scratch, db, false⟩
      else ⟨[Reply.bookPrompt], ConvState.askTime, scratch, db, false⟩

/-- `bot.py`'s `_route_button`: dispatch a menu-button label to the command
handlers; `my` is followed by `ConversationHandler.END`. -/
def _route_button (c : Ctx) (db : DB) (scratch : Option String) (t : String) : TurnResult :=
  let cmd := BUTTON_TO_CMD t
  if cmd == some "book" then book c db scratch
  else if cmd == some "my" then
    let m := my c db
    ⟨m.replies, ConvState.idle, scratch, db, m.errored⟩
  else if cmd == some "link" then link c db scratch
  else if cmd == some "cancel" then cancel c db scratch
  else ⟨[], ConvState.idle, scratch, db, false⟩

/-- `bot.py`'s `ask_passport` (state `ASK_PASSPORT`): strip; route menu
buttons; re-prompt on a malformed passport; otherwise stash the passport in
`user_data` and move to `ASK_BDATE`. -/
def ask_passport (c : Ctx) (db : DB) (scratch : Option String) (text : String) : TurnResult :=
  let t := pyStrip text
  if (BUTTON_TO_CMD t).isSome then _route_button c db scratch t
  else if !passportRe t then ⟨[Reply.badPassport], ConvState.askPassport, scratch, db, false⟩
  else ⟨[Reply.bdatePrompt], ConvState.askBdate, some t, db, false⟩

/-- `bot.py`'s `ask_bdate` (state `ASK_BDATE`): strip; route menu buttons;
re-prompt on an unparsable date; otherwise call
`link_patient_by_passport_and_birthdate` with the stashed passport and end the
flow with the not-found or success reply (clearing `user_data` either way). -/
def ask_bdate (c : Ctx) (db : DB) (scratch : Option String) (text : String) : TurnResult :=
  let t := pyStrip text
  if (BUTTON_TO_CMD t).isSome then _route_button c db scratch t
  else
    match _parse_birth_date t with
    | none => ⟨[Reply.badBdate], ConvState.askBdate, scratch, db, false⟩
    | some bdate_iso =>
      if !c.dbUp then ⟨[], ConvState.idle, scratch, db, true⟩
      else
        match link_patient_by_passport_and_birthdate db c.tg c.username (scratch.getD "") bdate_iso c.dbNow with
        | (none, db1) => ⟨[Reply.linkNotFound], ConvState.idle, none, db1, false⟩
        | (some patient, db1) => ⟨[Reply.linkDone patient.fio], ConvState.idle, none, db1, false⟩

/-- `bot.py`'s `ask_time` (state `ASK_TIME`): strip; route menu buttons;
re-prompt on an unparsable or past time; re-check the identity binding (lost
binding ends the flow); otherwise attempt the appointment write through
`upsert_appointment_for_patient` with the synthetic `PATIENT#<id>` name
snapshot.  Were the write to return, the handler would reply success and end
the flow; since that statement always raises (see
`upsert_appointment_for_patient`), the turn aborts at the call: no reply is
sent, `user_data` is not cleared, and the store is unchanged.  (`not
identity.get("patient_id")` is Python-falsy for both `None` and `0`.) -/
def ask_time (c : Ctx) (db : DB) (scratch : Option String) (text : String) : TurnResult :=
  let t := pyStrip text
  if (BUTTON_TO_CMD t).isSome then _route_button c db scratch t
  else
    match _parse_dt t with
    | none => ⟨[Reply.badDT], ConvState.askTime, scratch, db, false⟩
    | some aw =>
      if dtLt aw.naive c.nowDT then ⟨[Reply.pastDT], ConvState.askTime, scratch, db, false⟩
      else if !c.dbUp then ⟨[], ConvState.idle, scratch, db, true⟩
      else
        match get_identity db c.tg with
        | none => ⟨[Reply.lostBinding], ConvState.idle, scratch, db, false⟩
        | some r =>
          match r.patient_id with
          | none => ⟨[Reply.lostBinding], ConvState.idle, scratch, db, false⟩
          | some pid =>
            if pid == 0 then ⟨[Reply.lostBinding], ConvState.idle, scratch, db, false⟩
            else
              let fio := "PATIENT#" ++ Nat.repr pid
              match upsert_appointment_for_patient db pid c.tg fio (isoformatAware aw) c.dbNow with
              | Except.error _ => ⟨[], ConvState.idle, scratch, db, true⟩
              | Except.ok db1 => ⟨[Reply.bookDone aw.naive], ConvState.idle, none, db1, false⟩

/-- Every-turn-gets-a-reply / error-turn discipline relative to the incoming
store state: a non-raising turn sends at least one reply; a raising turn sends
none and leaves the store untouched. -/
def turnOk (dbIn : DB) (r : TurnResult) : Prop :=
  (r.errored = false → r.replies ≠ []) ∧ (r.errored = true → r.replies = [] ∧ r.db = dbIn)

/-! ## List helper lemmas -/

theorem length_filter_map_of_pred (l : List α) (f : α → α) (q : α → Bool)
    (h : ∀ a, q (f a) = q a) : ((l.map f).filter q).length = (l.filter q).length := by
  induction l with
  | nil => rfl
  | cons a t ih =>
    simp only [List.map_cons, List.filter_cons, h a]
    cases q a <;> simp [ih]

theorem find?_map_of_pred (l : List α) (f : α → α) (q : α → Bool)
    (h : ∀ a, q (f a) = q a) : (l.map f).find? q = (l.find? q).map f := by
  induction l with
  | nil => rfl
  | cons a t ih =>
    by_cases ha : q a = true
    · rw [List.map_cons, List.find?_cons_of_pos _ (by rw [h a]; exact ha),
        List.find?_cons_of_pos _ ha, Option.map_some']
    · rw [List.map_cons, List.find?_cons_of_neg _ (by rw [h a]; exact ha),
        List.find?_cons_of_neg _ ha, ih]

theorem filter_length_pos_of_any (l : List α) (q : α → Bool) (h : l.any q = true) :
    0 < (l.filter q).length := by
  rw [List.any_eq_true] at h
  obtain ⟨x, hx, hq⟩ := h
  have : x ∈ l.filter q := List.mem_filter.2 ⟨hx, hq⟩
  exact List.length_pos.2 (List.ne_nil_of_mem this)

theorem find?_append_of_none (l₁ l₂ : List α) (q : α → Bool) (h : l₁.find? q = none) :
    (l₁ ++ l₂).find? q = l₂.find? q := by
  rw [List.find?_append, h, Option.none_or]

/-! ## Stripping lemmas -/

theorem dropWhile_head_not (p : α → Bool) (l : List α) (a : α)
    (h : (l.dropWhile p).head? = some a) : p a = false := by
  induction l with
  | nil => simp [List.dropWhile] at h
  | cons b t ih =>
    rw [List.dropWhile_cons] at h
    by_cases hb : p b = true
    · rw [if_pos hb] at h; exact ih h
    · rw [if_neg hb] at h
      simp only [List.head?_cons, Option.some.injEq] at h
      subst h; exact Bool.eq_false_iff.2 hb

theorem dropWhile_eq_self_of_head (p : α → Bool) (l : List α)
    (h : ∀ a, l.head? = some a → p a = false) : l.dropWhile p = l := by
  cases l with
  | nil => rfl
  | cons a t =>
    rw [List.dropWhile_cons, if_neg]
    rw [h a rfl]; simp

theorem dropTrail_head (l : List Char) (a : Char) (h : (dropTrail l).head? = some a) :
    l.head? = some a := by
  cases l with
  | nil => simp [dropTrail] at h
  | cons b t =>
    rw [dropTrail] at h
    by_cases hc : (dropTrail t).isEmpty && isPySpace b
    · rw [if_pos hc] at h; simp at h
    · rw [if_neg hc] at h
      simp only [List.head?_cons, Option.some.injEq] at h
      subst h; rfl

theorem dropTrail_idem (l : List Char) : dropTrail (dropTrail l) = dropTrail l := by
  induction l with
  | nil => rfl
  | cons a t ih =>
    rw [dropTrail]
    by_cases hc : (dropTrail t).isEmpty && isPySpace a
    · rw [if_pos hc]; rfl
    · rw [if_neg hc, dropTrail, ih, if_neg hc]

theorem pyStripList_idem (l : List Char) : pyStripList (pyStripList l) = pyStripList l := by
  unfold pyStripList
  rw [dropWhile_eq_self_of_head isPySpace (dropTrail (l.dropWhile isPySpace)), dropTrail_idem]
  intro a ha
  exact dropWhile_head_not isPySpace l a (dropTrail_head _ a ha)

theorem parse_dt_strip (s : String) : _parse_dt (pyStrip s) = _parse_dt s := by
  unfold _parse_dt pyStrip
  rw [show (String.mk (pyStripList s.data)).data = pyStripList s.data from rfl,
    pyStripList_idem]

theorem parse_birth_date_strip (s : String) :
    _parse_birth_date (pyStrip s) = _parse_birth_date s := by
  unfold _parse_birth_date pyStrip
  rw [show (String.mk (pyStripList s.data)).data = pyStripList s.data from rfl,
    pyStripList_idem]

/-- A string whose stripped form parses as a datetime is not a menu-button
label (no label parses). -/
theorem button_none_of_parse_dt (s : String) (aw : AwareDT) (h : _parse_dt s = some aw) :
    BUTTON_TO_CMD (pyStrip s) = none := by
  unfold BUTTON_TO_CMD
  by_cases h1 : pyStrip s = BTN_BOOK
  · rw [← parse_dt_strip s, h1, show _parse_dt BTN_BOOK = none from by decide] at h
    exact Option.noConfusion h
  · by_cases h2 : pyStrip s = BTN_MY
    · rw [← parse_dt_strip s, h2, show _parse_dt BTN_MY = none from by decide] at h
      exact Option.noConfusion h
    · by_cases h3 : pyStrip s = BTN_LINK
      · rw [← parse_dt_strip s, h3, show _parse_dt BTN_LINK = none from by decide] at h
        exact Option.noConfusion h
      · by_cases h4 : pyStrip s = BTN_CANCEL
        · rw [← parse_dt_strip s, h4, show _parse_dt BTN_CANCEL = none from by decide] at h
          exact Option.noConfusion h
        · simp only [beq_iff_eq, h1, h2, h3, h4, if_false]

/-- A string whose stripped form parses as a birth date is not a menu-button
label. -/
theorem button_none_of_parse_bd (s : String) (r : String) (h : _parse_birth_date s = some r) :
    BUTTON_TO_CMD (pyStrip s) = none := by
  unfold BUTTON_TO_CMD
  by_cases h1 : pyStrip s = BTN_BOOK
  · rw [← parse_birth_date_strip s, h1, show _parse_birth_date BTN_BOOK = none from by decide] at h
    exact Option.noConfusion h
  · by_cases h2 : pyStrip s = BTN_MY
    · rw [← parse_birth_date_strip s, h2, show _parse_birth_date BTN_MY = none from by decide] at h
      exact Option.noConfusion h
    · by_cases h3 : pyStrip s = BTN_LINK
      · rw [← parse_birth_date_strip s, h3, show _parse_birth_date BTN_LINK = none from by decide] at h
        exact Option.noConfusion h
      · by_cases h4 : pyStrip s = BTN_CANCEL
        · rw [← parse_birth_date_strip s, h4, show _parse_birth_date BTN_CANCEL = none from by decide] at h
          exact Option.noConfusion h
        · simp only [beq_iff_eq, h1, h2, h3, h4, if_false]

/-! ## Store lemmas: identity linking -/

theorem link_found (db : DB) (tg : Nat) (u : Option String) (pass bd : String) (now : Nat)
    (p : Patient)
    (h : (link_patient_by_passport_and_birthdate db tg u pass bd now).1 = some p) :
    db.patients.find? (fun pt => pt.passport == pyStrip pass && pt.birth_date == bd) = some p := by
  simp only [link_patient_by_passport_and_birthdate] at h
  cases hf : db.patients.find? (fun pt => pt.passport == pyStrip pass && pt.birth_date == bd) with
  | none => rw [hf] at h; exact absurd h (by simp)
  | some q => rw [hf] at h; simpa using h

theorem link_patients_unchanged (db : DB) (tg : Nat) (u : Option String) (pass bd : String)
    (now : Nat) :
    (link_patient_by_passport_and_birthdate db tg u pass bd now).2.patients = db.patients := by
  simp only [link_patient_by_passport_and_birthdate]
  cases hf : db.patients.find? (fun pt => pt.passport == pyStrip pass && pt.birth_date == bd) <;>
    rfl

theorem link_appointments_unchanged (db : DB) (tg : Nat) (u : Option String) (pass bd : String)
    (now : Nat) :
    (link_patient_by_passport_and_birthdate db tg u pass bd now).2.appointments =
      db.appointments := by
  simp only [link_patient_by_passport_and_birthdate]
  cases hf : db.patients.find? (fun pt => pt.passport == pyStrip pass && pt.birth_date == bd) <;>
    rfl

/-- A successful link leaves exactly the freshly written identity row under the
caller's `tg_id` (its `created_at` is the only field carried over from any
prior row). -/
theorem link_success_row (db : DB) (tg : Nat) (u : Option String) (pass bd : String)
    (now : Nat) (p : Patient)
    (h : (link_patient_by_passport_and_birthdate db tg u pass bd now).1 = some p) :
    ∃ ca, get_identity (link_patient_by_passport_and_birthdate db tg u pass bd now).2 tg =
      some { tg_id := tg, patient_id := some p.id, user_id := none,
             telegram_username := u, verified_at := some now, created_at := ca } := by
  have hf := link_found db tg u pass bd now p h
  simp only [get_identity, link_patient_by_passport_and_birthdate]
  rw [hf]
  by_cases hany : db.identities.any (fun r => r.tg_id == tg) = true
  · simp only [hany, if_true]
    rw [find?_map_of_pred _ _ _ (by
      intro a; by_cases hc : a.tg_id == tg <;> simp [hc])]
    have hsome : (db.identities.find? (fun r => r.tg_id == tg)).isSome := by
      rw [List.find?_isSome]
      rw [List.any_eq_true] at hany
      exact hany
    obtain ⟨r0, hr0⟩ := Option.isSome_iff_exists.1 hsome
    have htg : r0.tg_id = tg := by
      have := List.find?_some hr0
      simpa using this
    rw [hr0]
    exact ⟨r0.created_at, by simp [htg]⟩
  · simp only [hany, Bool.false_eq_true, if_false]
    refine ⟨now, ?_⟩
    rw [find?_append_of_none _ _ _ (List.find?_eq_none.2 (by
      intro r hr hq
      rw [List.any_eq_true] at hany
      exact hany ⟨r, hr, hq⟩))]
    simp

/-! ## Handler reduction lemmas -/

theorem turnOk_ok (dbIn : DB) (x : Reply) (xs : List Reply) (st : ConvState)
    (sc : Option String) (db2 : DB) : turnOk dbIn ⟨x :: xs, st, sc, db2, false⟩ :=
  ⟨fun _ => by simp, fun h => by simp at h⟩

theorem turnOk_err (dbIn : DB) (st : ConvState) (sc : Option String) :
    turnOk dbIn ⟨[], st, sc, dbIn, true⟩ :=
  ⟨fun h => by simp at h, fun _ => ⟨rfl, rfl⟩⟩

theorem BUTTON_TO_CMD_cases (t : String) (h : (BUTTON_TO_CMD t).isSome = true) :
    BUTTON_TO_CMD t = some "book" ∨ BUTTON_TO_CMD t = some "my" ∨
    BUTTON_TO_CMD t = some "link" ∨ BUTTON_TO_CMD t = some "cancel" := by
  unfold BUTTON_TO_CMD at *
  split_ifs at * <;> simp_all

theorem my_no_reply_iff (c : Ctx) (db : DB) :
    ((my c db).errored = false → (my c db).replies ≠ []) ∧
    ((my c db).errored = true → (my c db).replies = []) := by
  unfold my
  split
  · exact ⟨fun h => by simp at h, fun _ => rfl⟩
  · split
    · exact ⟨fun _ => by simp, fun h => by simp at h⟩
    · split
      · exact ⟨fun _ => by simp, fun h => by simp at h⟩
      · split
        · exact ⟨fun _ => by simp, fun h => by simp at h⟩
        · exact ⟨fun _ => by simp, fun h => by simp at h⟩

theorem turnOk_book (c : Ctx) (db : DB) (scratch : Option String) :
    turnOk db (book c db scratch) := by
  unfold book
  split
  · exact turnOk_err db ConvState.idle scratch
  · split
    · exact turnOk_ok db Reply.bookNeedLink [] ConvState.idle scratch db
    · split
      · exact turnOk_ok db Reply.bookNeedLink [] ConvState.idle scratch db
      · exact turnOk_ok db Reply.bookPrompt [] ConvState.askTime scratch db

theorem turnOk_route (c : Ctx) (db : DB) (scratch : Option String) (t : String)
    (h : (BUTTON_TO_CMD t).isSome = true) : turnOk db (_route_button c db scratch t) := by
  rcases BUTTON_TO_CMD_cases t h with hc | hc | hc | hc <;>
    unfold _route_button <;> rw [hc]
  · rw [if_pos (by decide)]
    exact turnOk_book c db scratch
  · rw [if_neg (by decide), if_pos (by decide)]
    exact ⟨fun he => (my_no_reply_iff c db).1 he,
           fun he => ⟨(my_no_reply_iff c db).2 he, rfl⟩⟩
  · rw [if_neg (by decide), if_neg (by decide), if_pos (by decide)]
    exact turnOk_ok db Reply.linkPrompt [] ConvState.askPassport scratch db
  · rw [if_neg (by decide), if_neg (by decide), if_neg (by decide), if_pos (by decide)]
    exact turnOk_ok db Reply.cancelAck [] ConvState.idle none db

theorem turnOk_ask_time (c : Ctx) (db : DB) (scratch : Option String) (text : String) :
    turnOk db (ask_time c db scratch text) := by
  simp only [ask_time]
  by_cases hb : (BUTTON_TO_CMD (pyStrip text)).isSome = true
  · rw [if_pos hb]
    exact turnOk_route c db scratch _ hb
  · rw [if_neg hb]
    cases hp : _parse_dt (pyStrip text) with
    | none => exact turnOk_ok db Reply.badDT [] ConvState.askTime scratch db
    | some aw =>
      simp only []
      by_cases hlt : dtLt aw.naive c.nowDT = true
      · rw [if_pos hlt]
        exact turnOk_ok db Reply.pastDT [] ConvState.askTime scratch db
      · rw [if_neg hlt]
        by_cases hup : (!c.dbUp) = true
        · rw [if_pos hup]
          exact turnOk_err db ConvState.idle scratch
        · rw [if_neg hup]
          cases hg : get_identity db c.tg with
          | none => exact turnOk_ok db Reply.lostBinding [] ConvState.idle scratch db
          | some r =>
            simp only []
            cases hpid : r.patient_id with
            | none => exact turnOk_ok db Reply.lostBinding [] ConvState.idle scratch db
            | some pid =>
              simp only []
              by_cases h0 : (pid == 0) = true
              · rw [if_pos h0]
                exact turnOk_ok db Reply.lostBinding [] ConvState.idle scratch db
              · rw [if_neg h0]
                cases hu : upsert_appointment_for_patient db pid c.tg
                    ("PATIENT#" ++ Nat.repr pid) (isoformatAware aw) c.dbNow with
                | error e => exact turnOk_err db ConvState.idle scratch
                | ok db1 =>
                  exact turnOk_ok db (Reply.bookDone aw.naive) [] ConvState.idle none db1

theorem turnOk_ask_bdate (c : Ctx) (db : DB) (scratch : Option String) (text : String) :
    turnOk db (ask_bdate c db scratch text) := by
  simp only [ask_bdate]
  by_cases hb : (BUTTON_TO_CMD (pyStrip text)).isSome = true
  · rw [if_pos hb]
    exact turnOk_route c db scratch _ hb
  · rw [if_neg hb]
    cases hp : _parse_birth_date (pyStrip text) with
    | none => exact turnOk_ok db Reply.badBdate [] ConvState.askBdate scratch db
    | some iso =>
      simp only []
      by_cases hup : (!c.dbUp) = true
      · rw [if_pos hup]
        exact turnOk_err db ConvState.idle scratch
      · rw [if_neg hup]
        cases hl : link_patient_by_passport_and_birthdate db c.tg c.username (scratch.getD "") iso c.dbNow with
        | mk res db1 =>
          cases res with
          | none => exact turnOk_ok db Reply.linkNotFound [] ConvState.idle none db1
          | some patient =>
            exact turnOk_ok db (Reply.linkDone patient.fio) [] ConvState.idle none db1

/-- With a parsing (hence non-button) input, `ask_time` reduces past the
button and parse branches. -/
theorem ask_time_parsed (c : Ctx) (db : DB) (scratch : Option String) (text : String)
    (aw : AwareDT) (hparse : _parse_dt text = some aw) :
    ask_time c db scratch text =
      (if dtLt aw.naive c.nowDT then ⟨[Reply.pastDT], ConvState.askTime, scratch, db, false⟩
       else if !c.dbUp then ⟨[], ConvState.idle, scratch, db, true⟩
       else match get_identity db c.tg with
       | none => ⟨[Reply.lostBinding], ConvState.idle, scratch, db, false⟩
       | some r =>
         match r.patient_id with
         | none => ⟨[Reply.lostBinding], ConvState.idle, scratch, db, false⟩
         | some pid =>
           if pid == 0 then ⟨[Reply.lostBinding], ConvState.idle, scratch, db, false⟩
           else
             match upsert_appointment_for_patient db pid c.tg ("PATIENT#" ++ Nat.repr pid)
                 (isoformatAware aw) c.dbNow with
             | Except.error _ => ⟨[], ConvState.idle, scratch, db, true⟩
             | Except.ok db1 =>
               ⟨[Reply.bookDone aw.naive], ConvState.idle, none, db1, false⟩) := by
  have hb := button_none_of_parse_dt text aw hparse
  have hp : _parse_dt (pyStrip text) = some aw := by rw [parse_dt_strip]; exact hparse
  simp only [ask_time, hb, Option.isSome_none, Bool.false_eq_true, if_false, hp]

/-- With a parsing (hence non-button) input, `ask_bdate` reduces past the
button and parse branches. -/
theorem ask_bdate_parsed (c : Ctx) (db : DB) (scratch : Option String) (text : String)
    (iso : String) (hparse : _parse_birth_date text = some iso) :
    ask_bdate c db scratch text =
      (if !c.dbUp then ⟨[], ConvState.idle, scratch, db, true⟩
       else match link_patient_by_passport_and_birthdate db c.tg c.username (scratch.getD "") iso c.dbNow with
       | (none, db1) => ⟨[Reply.linkNotFound], ConvState.idle, none, db1, false⟩
       | (some patient, db1) => ⟨[Reply.linkDone patient.fio], ConvState.idle, none, db1, false⟩) := by
  have hb := button_none_of_parse_bd text iso hparse
  have hp : _parse_birth_date (pyStrip text) = some iso := by
    rw [parse_birth_date_strip]; exact hparse
  simp only [ask_bdate, hb, Option.isSome_none, Bool.false_eq_true, if_false, hp]

/-! ## Digit and rendering lemmas -/

theorem myIsDigit_digitCh (n : Nat) (h : n ≤ 9) : myIsDigit (digitCh n) = true := by
  interval_cases n <;> decide

theorem digitVal_digitCh (n : Nat) (h : n ≤ 9) : digitVal (digitCh n) = n := by
  interval_cases n <;> decide

theorem isPySpace_digitCh (n : Nat) (h : n ≤ 9) : isPySpace (digitCh n) = false := by
  interval_cases n <;> decide

theorem takeNum12_digits (v : Nat) (hv : v ≤ 99) (rest : List Char) :
    takeNum12 (digitCh (v / 10 % 10) :: digitCh (v % 10) :: rest) = some (v, rest) := by
  have h1 : v / 10 % 10 ≤ 9 := by omega
  have h2 : v % 10 ≤ 9 := by omega
  simp only [takeNum12, myIsDigit_digitCh _ h1, myIsDigit_digitCh _ h2, if_true,
    digitVal_digitCh _ h1, digitVal_digitCh _ h2, Option.some.injEq, Prod.mk.injEq]
  exact ⟨by omega, trivial⟩

theorem takeNum4_digits (v : Nat) (hv : v ≤ 9999) (rest : List Char) :
    takeNum4 (digitCh (v / 1000 % 10) :: digitCh (v / 100 % 10) :: digitCh (v / 10 % 10) ::
      digitCh (v % 10) :: rest) = some (v, rest) := by
  have h1 : v / 1000 % 10 ≤ 9 := by omega
  have h2 : v / 100 % 10 ≤ 9 := by omega
  have h3 : v / 10 % 10 ≤ 9 := by omega
  have h4 : v % 10 ≤ 9 := by omega
  simp only [takeNum4, myIsDigit_digitCh _ h1, myIsDigit_digitCh _ h2, myIsDigit_digitCh _ h3,
    myIsDigit_digitCh _ h4, Bool.and_self, Bool.and_true, if_true,
    digitVal_digitCh _ h1, digitVal_digitCh _ h2, digitVal_digitCh _ h3, digitVal_digitCh _ h4,
    Option.some.injEq, Prod.mk.injEq]
  exact ⟨by omega, trivial⟩

theorem takeNum12_digit1 (v : Nat) (hv : v ≤ 9) (x : Char) (hx : myIsDigit x = false)
    (t : List Char) : takeNum12 (digitCh v :: x :: t) = some (v, x :: t) := by
  simp only [takeNum12, myIsDigit_digitCh _ hv, hx, if_true, Bool.false_eq_true, if_false,
    digitVal_digitCh _ hv]

theorem takeNum12_digit1_nil (v : Nat) (hv : v ≤ 9) : takeNum12 [digitCh v] = some (v, []) := by
  simp only [takeNum12, myIsDigit_digitCh _ hv, if_true, digitVal_digitCh _ hv]

theorem lit_cons (ch : Char) (rest : List Char) : lit ch (ch :: rest) = some rest := by
  simp [lit]

theorem lit_ne (ch x : Char) (h : (x == ch) = false) (rest : List Char) :
    lit ch (x :: rest) = none := by
  simp [lit, h]

theorem ws1_digit (n : Nat) (hn : n ≤ 9) (t : List Char) :
    ws1 (' ' :: digitCh n :: t) = some (digitCh n :: t) := by
  have h : isPySpace ' ' = true := by decide
  have hd : ¬ isPySpace (digitCh n) = true := by simp [isPySpace_digitCh n hn]
  simp only [ws1, h, if_true, List.dropWhile_cons_of_neg hd]

theorem takeNum4_none3 (a b x : Char) (hx : myIsDigit x = false) (t : List Char) :
    takeNum4 (a :: b :: x :: t) = none := by
  cases t with
  | nil => rfl
  | cons e t2 => simp [takeNum4, hx]

theorem digitCh_ne_dot (k : Nat) (h : k ≤ 9) : (digitCh k == '.') = false := by
  interval_cases k <;> decide

theorem daysInMonth_le (y m : Nat) : daysInMonth y m ≤ 31 := by
  unfold daysInMonth
  split_ifs <;> omega

theorem DateTime.valid_of (y mo d h mi s : Nat) (hy1 : 1 ≤ y) (hy : y ≤ 9999)
    (hmo1 : 1 ≤ mo) (hmo : mo ≤ 12) (hd1 : 1 ≤ d) (hd : d ≤ daysInMonth y mo)
    (hh : h ≤ 23) (hmi : mi ≤ 59) (hs : s ≤ 59) :
    (DateTime.mk y mo d h mi s).valid = true := by
  simp only [DateTime.valid, Bool.and_eq_true, Nat.ble_eq]
  omega

/-! ## Rendered inputs (for stating parser completeness)

`strptime` compiles `%m`, `%d`, `%H`, `%M`, `%S` to one-or-two-digit numbers
and a format space to `\s+`, so each format accepts a whole family of
renderings: every two-digit field independently zero-padded or bare, the
seconds part present or absent per format, and any nonempty whitespace run
between date and time.  The renders below are parameterised over all of
these choices. -/

/-- A one-or-two-digit `strptime` field: zero-padded (`p = true`) or bare
(then the value must be a single digit for the render to be faithful). -/
def fieldL : Bool → Nat → List Char
  | true, v => pad2L v
  | false, v => [digitCh v]

/-- Head character of a rendered field (always a digit character). -/
def fieldHd : Bool → Nat → Char
  | true, v => digitCh (v / 10 % 10)
  | false, v => digitCh v

/-- The rendered field minus its head, followed by `rest`. -/
def fieldTl : Bool → Nat → List Char → List Char
  | true, v, rest => digitCh (v % 10) :: rest
  | false, _, rest => rest

theorem fieldL_cons (p : Bool) (v : Nat) (rest : List Char) :
    fieldL p v ++ rest = fieldHd p v :: fieldTl p v rest := by
  cases p <;> rfl

/-- The lenient `%Y-%m-%d %H:%M[:%S]` family: month, day, hour, minute and
second independently padded or bare, whitespace run `ws` between date and
time, seconds part present iff `withSec`. -/
def renderYMDgen (pmo pd ph pmi ps : Bool) (ws : List Char) (withSec : Bool)
    (y mo d h mi s : Nat) : List Char :=
  pad4L y ++ '-' :: fieldL pmo mo ++ '-' :: fieldL pd d ++ ws ++
    fieldL ph h ++ ':' :: fieldL pmi mi ++ (if withSec then ':' :: fieldL ps s else [])

/-- The lenient `%d.%m.%Y %H:%M[:%S]` family. -/
def renderDMYgen (pd pmo ph pmi ps : Bool) (ws : List Char) (withSec : Bool)
    (y mo d h mi s : Nat) : List Char :=
  fieldL pd d ++ '.' :: fieldL pmo mo ++ '.' :: pad4L y ++ ws ++
    fieldL ph h ++ ':' :: fieldL pmi mi ++ (if withSec then ':' :: fieldL ps s else [])

/-- The lenient `%d.%m.%Y` family. -/
def renderDMYdateGen (pd pmo : Bool) (y mo d : Nat) : List Char :=
  fieldL pd d ++ '.' :: fieldL pmo mo ++ '.' :: pad4L y

/-- The lenient `%Y-%m-%d` family. -/
def renderYMDdateGen (pmo pd : Bool) (y mo d : Nat) : List Char :=
  pad4L y ++ '-' :: fieldL pmo mo ++ '-' :: fieldL pd d

theorem not_digit_of_space (ch : Char) (h : isPySpace ch = true) : myIsDigit ch = false := by
  have hlt : ch.toNat < 48 := by
    simp only [isPySpace, Bool.or_eq_true, beq_iff_eq] at h
    rcases h with ((((h | h) | h) | h) | h) | h
    all_goals first
      | (subst h; decide)
      | omega
  simp only [myIsDigit]
  rw [decide_eq_false (by omega : ¬ 48 ≤ ch.toNat), Bool.false_and]

theorem isPySpace_digitCh_any (n : Nat) : isPySpace (digitCh n) = false := by
  unfold digitCh
  split <;> decide

theorem isPySpace_fieldHd (p : Bool) (v : Nat) : isPySpace (fieldHd p v) = false := by
  cases p <;> simp only [fieldHd, isPySpace_digitCh_any]

theorem takeNum12_fieldL' (p : Bool) (v : Nat) (hv : v ≤ 99) (hv9 : p = false → v ≤ 9)
    (x : Char) (hx : myIsDigit x = false) (t : List Char) :
    takeNum12 (fieldL p v ++ x :: t) = some (v, x :: t) := by
  cases p with
  | true => exact takeNum12_digits v hv (x :: t)
  | false => exact takeNum12_digit1 v (hv9 rfl) x hx t

theorem takeNum12_fieldL_nil (p : Bool) (v : Nat) (hv : v ≤ 99) (hv9 : p = false → v ≤ 9) :
    takeNum12 (fieldL p v) = some (v, []) := by
  cases p with
  | true => exact takeNum12_digits v hv []
  | false => exact takeNum12_digit1_nil v (hv9 rfl)

theorem fieldTl_append (p : Bool) (v : Nat) (rest t : List Char) :
    fieldTl p v rest ++ t = fieldTl p v (rest ++ t) := by
  cases p <;> rfl

theorem takeNum12_fieldHd (p : Bool) (v : Nat) (hv : v ≤ 99) (hv9 : p = false → v ≤ 9)
    (x : Char) (hx : myIsDigit x = false) (t : List Char) :
    takeNum12 (fieldHd p v :: fieldTl p v (x :: t)) = some (v, x :: t) := by
  rw [← fieldL_cons]
  exact takeNum12_fieldL' p v hv hv9 x hx t

theorem takeNum4_none_second (a x : Char) (hx : myIsDigit x = false) (t : List Char) :
    takeNum4 (a :: x :: t) = none := by
  cases t with
  | nil => rfl
  | cons e t2 =>
    cases t2 with
    | nil => rfl
    | cons f t3 => simp [takeNum4, hx]

theorem dropWhile_spaces_append (w : List Char) (x : Char) (hx : isPySpace x = false)
    (t : List Char) :
    (∀ ch ∈ w, isPySpace ch = true) →
    List.dropWhile isPySpace (w ++ x :: t) = x :: t := by
  induction w with
  | nil =>
    intro _
    have hnx : ¬ isPySpace x = true := by simp [hx]
    simp only [List.nil_append]
    exact List.dropWhile_cons_of_neg hnx
  | cons b w2 ih =>
    intro hw
    have hb : isPySpace b = true := hw b (by simp)
    simp only [List.cons_append, List.dropWhile_cons_of_pos hb]
    exact ih (fun ch hch => hw ch (by simp [hch]))

theorem ws1_cons_spaces (a : Char) (ha : isPySpace a = true) (w : List Char)
    (hw : ∀ ch ∈ w, isPySpace ch = true) (x : Char) (hx : isPySpace x = false)
    (t : List Char) :
    ws1 (a :: (w ++ x :: t)) = some (x :: t) := by
  simp only [ws1, ha, if_true]
  exact congrArg some (dropWhile_spaces_append w x hx t hw)

theorem strptimeYMD_gen_noSec (pmo pd ph pmi ps : Bool) (ws : List Char)
    (y mo d h mi se : Nat)
    (hws : ws ≠ []) (hsp : ∀ ch ∈ ws, isPySpace ch = true)
    (hy1 : 1 ≤ y) (hy : y ≤ 9999)
    (hmo1 : 1 ≤ mo) (hmo : mo ≤ 12) (hmo9 : pmo = false → mo ≤ 9)
    (hd1 : 1 ≤ d) (hd : d ≤ daysInMonth y mo) (hd9 : pd = false → d ≤ 9)
    (hh : h ≤ 23) (hh9 : ph = false → h ≤ 9)
    (hmi : mi ≤ 59) (hmi9 : pmi = false → mi ≤ 9) :
    strptimeYMD false (renderYMDgen pmo pd ph pmi ps ws false y mo d h mi se) =
      some ⟨y, mo, d, h, mi, 0⟩ := by
  obtain ⟨a, w, rfl⟩ := List.exists_cons_of_ne_nil hws
  have ha : isPySpace a = true := hsp a (by simp)
  have hwall : ∀ ch ∈ w, isPySpace ch = true := fun ch hch => hsp ch (by simp [hch])
  have h31 : daysInMonth y mo ≤ 31 := daysInMonth_le y mo
  simp only [renderYMDgen, Bool.false_eq_true, if_false, List.append_nil, pad4L,
    List.append_assoc, List.cons_append, List.nil_append, fieldL_cons ph h,
    fieldTl_append, strptimeYMD,
    takeNum4_digits y hy, lit_cons,
    takeNum12_fieldL' pmo mo (by omega) hmo9 '-' (by decide),
    takeNum12_fieldL' pd d (by omega) hd9 a (not_digit_of_space a ha),
    ws1_cons_spaces a ha w hwall (fieldHd ph h) (isPySpace_fieldHd ph h),
    takeNum12_fieldHd ph h (by omega) hh9 ':' (by decide),
    takeNum12_fieldL_nil pmi mi (by omega) hmi9,
    List.isEmpty_nil, Bool.true_and,
    DateTime.valid_of y mo d h mi 0 hy1 hy hmo1 hmo hd1 hd hh hmi (by omega),
    eq_self_iff_true, if_true]

theorem strptimeYMD_gen_skipSec (pmo pd ph pmi ps : Bool) (ws : List Char)
    (y mo d h mi se : Nat)
    (hws : ws ≠ []) (hsp : ∀ ch ∈ ws, isPySpace ch = true)
    (hy : y ≤ 9999)
    (hmo : mo ≤ 12) (hmo9 : pmo = false → mo ≤ 9)
    (hd : d ≤ daysInMonth y mo) (hd9 : pd = false → d ≤ 9)
    (hh : h ≤ 23) (hh9 : ph = false → h ≤ 9)
    (hmi : mi ≤ 59) (hmi9 : pmi = false → mi ≤ 9) :
    strptimeYMD false (renderYMDgen pmo pd ph pmi ps ws true y mo d h mi se) = none := by
  obtain ⟨a, w, rfl⟩ := List.exists_cons_of_ne_nil hws
  have ha : isPySpace a = true := hsp a (by simp)
  have hwall : ∀ ch ∈ w, isPySpace ch = true := fun ch hch => hsp ch (by simp [hch])
  have h31 : daysInMonth y mo ≤ 31 := daysInMonth_le y mo
  simp only [renderYMDgen, eq_self_iff_true, if_true, pad4L,
    List.append_assoc, List.cons_append, List.nil_append, fieldL_cons ph h,
    fieldTl_append, strptimeYMD,
    takeNum4_digits y hy, lit_cons,
    takeNum12_fieldL' pmo mo (by omega) hmo9 '-' (by decide),
    takeNum12_fieldL' pd d (by omega) hd9 a (not_digit_of_space a ha),
    ws1_cons_spaces a ha w hwall (fieldHd ph h) (isPySpace_fieldHd ph h),
    takeNum12_fieldHd ph h (by omega) hh9 ':' (by decide),
    takeNum12_fieldL' pmi mi (by omega) hmi9 ':' (by decide),
    Bool.false_eq_true, if_false,
    List.isEmpty_cons, Bool.false_and]

theorem strptimeYMD_gen_sec (pmo pd ph pmi ps : Bool) (ws : List Char)
    (y mo d h mi se : Nat)
    (hws : ws ≠ []) (hsp : ∀ ch ∈ ws, isPySpace ch = true)
    (hy1 : 1 ≤ y) (hy : y ≤ 9999)
    (hmo1 : 1 ≤ mo) (hmo : mo ≤ 12) (hmo9 : pmo = false → mo ≤ 9)
    (hd1 : 1 ≤ d) (hd : d ≤ daysInMonth y mo) (hd9 : pd = false → d ≤ 9)
    (hh : h ≤ 23) (hh9 : ph = false → h ≤ 9)
    (hmi : mi ≤ 59) (hmi9 : pmi = false → mi ≤ 9)
    (hse : se ≤ 59) (hse9 : ps = false → se ≤ 9) :
    strptimeYMD true (renderYMDgen pmo pd ph pmi ps ws true y mo d h mi se) =
      some ⟨y, mo, d, h, mi, se⟩ := by
  obtain ⟨a, w, rfl⟩ := List.exists_cons_of_ne_nil hws
  have ha : isPySpace a = true := hsp a (by simp)
  have hwall : ∀ ch ∈ w, isPySpace ch = true := fun ch hch => hsp ch (by simp [hch])
  have h31 : daysInMonth y mo ≤ 31 := daysInMonth_le y mo
  simp only [renderYMDgen, eq_self_iff_true, if_true, pad4L,
    List.append_assoc, List.cons_append, List.nil_append, fieldL_cons ph h,
    fieldTl_append, strptimeYMD,
    takeNum4_digits y hy, lit_cons,
    takeNum12_fieldL' pmo mo (by omega) hmo9 '-' (by decide),
    takeNum12_fieldL' pd d (by omega) hd9 a (not_digit_of_space a ha),
    ws1_cons_spaces a ha w hwall (fieldHd ph h) (isPySpace_fieldHd ph h),
    takeNum12_fieldHd ph h (by omega) hh9 ':' (by decide),
    takeNum12_fieldL' pmi mi (by omega) hmi9 ':' (by decide),
    takeNum12_fieldL_nil ps se (by omega) hse9,
    List.isEmpty_nil, Bool.true_and,
    DateTime.valid_of y mo d h mi se hy1 hy hmo1 hmo hd1 hd hh hmi hse]

theorem strptimeDMY_gen_noSec (pd pmo ph pmi ps : Bool) (ws : List Char)
    (y mo d h mi se : Nat)
    (hws : ws ≠ []) (hsp : ∀ ch ∈ ws, isPySpace ch = true)
    (hy1 : 1 ≤ y) (hy : y ≤ 9999)
    (hmo1 : 1 ≤ mo) (hmo : mo ≤ 12) (hmo9 : pmo = false → mo ≤ 9)
    (hd1 : 1 ≤ d) (hd : d ≤ daysInMonth y mo) (hd9 : pd = false → d ≤ 9)
    (hh : h ≤ 23) (hh9 : ph = false → h ≤ 9)
    (hmi : mi ≤ 59) (hmi9 : pmi = false → mi ≤ 9) :
    strptimeDMY false (renderDMYgen pd pmo ph pmi ps ws false y mo d h mi se) =
      some ⟨y, mo, d, h, mi, 0⟩ := by
  obtain ⟨a, w, rfl⟩ := List.exists_cons_of_ne_nil hws
  have ha : isPySpace a = true := hsp a (by simp)
  have hwall : ∀ ch ∈ w, isPySpace ch = true := fun ch hch => hsp ch (by simp [hch])
  have h31 : daysInMonth y mo ≤ 31 := daysInMonth_le y mo
  simp only [renderDMYgen, Bool.false_eq_true, if_false, List.append_nil, pad4L,
    List.append_assoc, List.cons_append, List.nil_append, fieldL_cons ph h,
    fieldTl_append, strptimeDMY,
    takeNum12_fieldL' pd d (by omega) hd9 '.' (by decide), lit_cons,
    takeNum12_fieldL' pmo mo (by omega) hmo9 '.' (by decide),
    takeNum4_digits y hy,
    ws1_cons_spaces a ha w hwall (fieldHd ph h) (isPySpace_fieldHd ph h),
    takeNum12_fieldHd ph h (by omega) hh9 ':' (by decide),
    takeNum12_fieldL_nil pmi mi (by omega) hmi9,
    List.isEmpty_nil, Bool.true_and,
    DateTime.valid_of y mo d h mi 0 hy1 hy hmo1 hmo hd1 hd hh hmi (by omega),
    eq_self_iff_true, if_true]

theorem strptimeDMY_gen_skipSec (pd pmo ph pmi ps : Bool) (ws : List Char)
    (y mo d h mi se : Nat)
    (hws : ws ≠ []) (hsp : ∀ ch ∈ ws, isPySpace ch = true)
    (hy : y ≤ 9999)
    (hmo : mo ≤ 12) (hmo9 : pmo = false → mo ≤ 9)
    (hd : d ≤ daysInMonth y mo) (hd9 : pd = false → d ≤ 9)
    (hh : h ≤ 23) (hh9 : ph = false → h ≤ 9)
    (hmi : mi ≤ 59) (hmi9 : pmi = false → mi ≤ 9) :
    strptimeDMY false (renderDMYgen pd pmo ph pmi ps ws true y mo d h mi se) = none := by
  obtain ⟨a, w, rfl⟩ := List.exists_cons_of_ne_nil hws
  have ha : isPySpace a = true := hsp a (by simp)
  have hwall : ∀ ch ∈ w, isPySpace ch = true := fun ch hch => hsp ch (by simp [hch])
  have h31 : daysInMonth y mo ≤ 31 := daysInMonth_le y mo
  simp only [renderDMYgen, eq_self_iff_true, if_true, pad4L,
    List.append_assoc, List.cons_append, List.nil_append, fieldL_cons ph h,
    fieldTl_append, strptimeDMY,
    takeNum12_fieldL' pd d (by omega) hd9 '.' (by decide), lit_cons,
    takeNum12_fieldL' pmo mo (by omega) hmo9 '.' (by decide),
    takeNum4_digits y hy,
    ws1_cons_spaces a ha w hwall (fieldHd ph h) (isPySpace_fieldHd ph h),
    takeNum12_fieldHd ph h (by omega) hh9 ':' (by decide),
    takeNum12_fieldL' pmi mi (by omega) hmi9 ':' (by decide),
    Bool.false_eq_true, if_false,
    List.isEmpty_cons, Bool.false_and]

theorem strptimeDMY_gen_sec (pd pmo ph pmi ps : Bool) (ws : List Char)
    (y mo d h mi se : Nat)
    (hws : ws ≠ []) (hsp : ∀ ch ∈ ws, isPySpace ch = true)
    (hy1 : 1 ≤ y) (hy : y ≤ 9999)
    (hmo1 : 1 ≤ mo) (hmo : mo ≤ 12) (hmo9 : pmo = false → mo ≤ 9)
    (hd1 : 1 ≤ d) (hd : d ≤ daysInMonth y mo) (hd9 : pd = false → d ≤ 9)
    (hh : h ≤ 23) (hh9 : ph = false → h ≤ 9)
    (hmi : mi ≤ 59) (hmi9 : pmi = false → mi ≤ 9)
    (hse : se ≤ 59) (hse9 : ps = false → se ≤ 9) :
    strptimeDMY true (renderDMYgen pd pmo ph pmi ps ws true y mo d h mi se) =
      some ⟨y, mo, d, h, mi, se⟩ := by
  obtain ⟨a, w, rfl⟩ := List.exists_cons_of_ne_nil hws
  have ha : isPySpace a = true := hsp a (by simp)
  have hwall : ∀ ch ∈ w, isPySpace ch = true := fun ch hch => hsp ch (by simp [hch])
  have h31 : daysInMonth y mo ≤ 31 := daysInMonth_le y mo
  simp only [renderDMYgen, eq_self_iff_true, if_true, pad4L,
    List.append_assoc, List.cons_append, List.nil_append, fieldL_cons ph h,
    fieldTl_append, strptimeDMY,
    takeNum12_fieldL' pd d (by omega) hd9 '.' (by decide), lit_cons,
    takeNum12_fieldL' pmo mo (by omega) hmo9 '.' (by decide),
    takeNum4_digits y hy,
    ws1_cons_spaces a ha w hwall (fieldHd ph h) (isPySpace_fieldHd ph h),
    takeNum12_fieldHd ph h (by omega) hh9 ':' (by decide),
    takeNum12_fieldL' pmi mi (by omega) hmi9 ':' (by decide),
    takeNum12_fieldL_nil ps se (by omega) hse9,
    List.isEmpty_nil, Bool.true_and,
    DateTime.valid_of y mo d h mi se hy1 hy hmo1 hmo hd1 hd hh hmi hse]

theorem strptimeYMD_none_on_DMYgen (b pd pmo ph pmi ps : Bool) (ws : List Char)
    (withSec : Bool) (y mo d h mi se : Nat) :
    strptimeYMD b (renderDMYgen pd pmo ph pmi ps ws withSec y mo d h mi se) = none := by
  cases pd with
  | true =>
    simp only [renderDMYgen, fieldL, pad2L, List.append_assoc, List.cons_append,
      List.nil_append, strptimeYMD,
      takeNum4_none3 _ _ '.' (by decide)]
  | false =>
    simp only [renderDMYgen, fieldL, List.append_assoc, List.cons_append,
      List.nil_append, strptimeYMD,
      takeNum4_none_second _ '.' (by decide)]

theorem strptimeDateDMY_gen (pd pmo : Bool) (y mo d : Nat)
    (hy1 : 1 ≤ y) (hy : y ≤ 9999)
    (hmo1 : 1 ≤ mo) (hmo : mo ≤ 12) (hmo9 : pmo = false → mo ≤ 9)
    (hd1 : 1 ≤ d) (hd : d ≤ daysInMonth y mo) (hd9 : pd = false → d ≤ 9) :
    strptimeDateDMY (renderDMYdateGen pd pmo y mo d) = some (y, mo, d) := by
  have h31 : daysInMonth y mo ≤ 31 := daysInMonth_le y mo
  simp only [renderDMYdateGen, pad4L, List.append_assoc, List.cons_append,
    List.nil_append, strptimeDateDMY,
    takeNum12_fieldL' pd d (by omega) hd9 '.' (by decide), lit_cons,
    takeNum12_fieldL' pmo mo (by omega) hmo9 '.' (by decide),
    takeNum4_digits y hy,
    List.isEmpty_nil, Bool.true_and,
    DateTime.valid_of y mo d 0 0 0 hy1 hy hmo1 hmo hd1 hd (by omega) (by omega) (by omega),
    eq_self_iff_true, if_true]

theorem strptimeDateYMD_gen (pmo pd : Bool) (y mo d : Nat)
    (hy1 : 1 ≤ y) (hy : y ≤ 9999)
    (hmo1 : 1 ≤ mo) (hmo : mo ≤ 12) (hmo9 : pmo = false → mo ≤ 9)
    (hd1 : 1 ≤ d) (hd : d ≤ daysInMonth y mo) (hd9 : pd = false → d ≤ 9) :
    strptimeDateYMD (renderYMDdateGen pmo pd y mo d) = some (y, mo, d) := by
  have h31 : daysInMonth y mo ≤ 31 := daysInMonth_le y mo
  simp only [renderYMDdateGen, pad4L, List.append_assoc, List.cons_append,
    List.nil_append, strptimeDateYMD,
    takeNum4_digits y hy, lit_cons,
    takeNum12_fieldL' pmo mo (by omega) hmo9 '-' (by decide),
    takeNum12_fieldL_nil pd d (by omega) hd9,
    List.isEmpty_nil, Bool.true_and,
    DateTime.valid_of y mo d 0 0 0 hy1 hy hmo1 hmo hd1 hd (by omega) (by omega) (by omega),
    eq_self_iff_true, if_true]

theorem strptimeDateDMY_none_on_YMDgen (pmo pd : Bool) (y mo d : Nat) :
    strptimeDateDMY (renderYMDdateGen pmo pd y mo d) = none := by
  have h1 : y / 1000 % 10 ≤ 9 := by omega
  have h2 : y / 100 % 10 ≤ 9 := by omega
  have h3 : y / 10 % 10 ≤ 9 := by omega
  simp only [renderYMDdateGen, pad4L, List.append_assoc, List.cons_append,
    List.nil_append, strptimeDateDMY,
    takeNum12, myIsDigit_digitCh _ h1, myIsDigit_digitCh _ h2, if_true,
    lit_ne '.' _ (digitCh_ne_dot _ h3)]

/-! ## Parser-level completeness and soundness -/

theorem parse_dt_of_stripped_YMDgen (s : String) (pmo pd ph pmi ps : Bool) (ws : List Char)
    (withSec : Bool) (y mo d h mi se : Nat)
    (hs : pyStripList s.data = renderYMDgen pmo pd ph pmi ps ws withSec y mo d h mi se)
    (hws : ws ≠ []) (hsp : ∀ ch ∈ ws, isPySpace ch = true)
    (hy1 : 1 ≤ y) (hy : y ≤ 9999)
    (hmo1 : 1 ≤ mo) (hmo : mo ≤ 12) (hmo9 : pmo = false → mo ≤ 9)
    (hd1 : 1 ≤ d) (hd : d ≤ daysInMonth y mo) (hd9 : pd = false → d ≤ 9)
    (hh : h ≤ 23) (hh9 : ph = false → h ≤ 9)
    (hmi : mi ≤ 59) (hmi9 : pmi = false → mi ≤ 9)
    (hse : se ≤ 59) (hse9 : ps = false → se ≤ 9) :
    _parse_dt s =
      some ⟨⟨y, mo, d, h, mi, if withSec then se else 0⟩, yakutskOffsetMinutes⟩ := by
  cases withSec with
  | false =>
    rw [if_neg Bool.false_ne_true]
    simp only [_parse_dt, hs,
      strptimeYMD_gen_noSec pmo pd ph pmi ps ws y mo d h mi se hws hsp hy1 hy
        hmo1 hmo hmo9 hd1 hd hd9 hh hh9 hmi hmi9]
  | true =>
    rw [if_pos rfl]
    simp only [_parse_dt, hs,
      strptimeYMD_gen_skipSec pmo pd ph pmi ps ws y mo d h mi se hws hsp hy
        hmo hmo9 hd hd9 hh hh9 hmi hmi9,
      strptimeYMD_gen_sec pmo pd ph pmi ps ws y mo d h mi se hws hsp hy1 hy
        hmo1 hmo hmo9 hd1 hd hd9 hh hh9 hmi hmi9 hse hse9]

theorem parse_dt_of_stripped_DMYgen (s : String) (pd pmo ph pmi ps : Bool) (ws : List Char)
    (withSec : Bool) (y mo d h mi se : Nat)
    (hs : pyStripList s.data = renderDMYgen pd pmo ph pmi ps ws withSec y mo d h mi se)
    (hws : ws ≠ []) (hsp : ∀ ch ∈ ws, isPySpace ch = true)
    (hy1 : 1 ≤ y) (hy : y ≤ 9999)
    (hmo1 : 1 ≤ mo) (hmo : mo ≤ 12) (hmo9 : pmo = false → mo ≤ 9)
    (hd1 : 1 ≤ d) (hd : d ≤ daysInMonth y mo) (hd9 : pd = false → d ≤ 9)
    (hh : h ≤ 23) (hh9 : ph = false → h ≤ 9)
    (hmi : mi ≤ 59) (hmi9 : pmi = false → mi ≤ 9)
    (hse : se ≤ 59) (hse9 : ps = false → se ≤ 9) :
    _parse_dt s =
      some ⟨⟨y, mo, d, h, mi, if withSec then se else 0⟩, yakutskOffsetMinutes⟩ := by
  cases withSec with
  | false =>
    rw [if_neg Bool.false_ne_true]
    simp only [_parse_dt, hs, strptimeYMD_none_on_DMYgen,
      strptimeDMY_gen_noSec pd pmo ph pmi ps ws y mo d h mi se hws hsp hy1 hy
        hmo1 hmo hmo9 hd1 hd hd9 hh hh9 hmi hmi9]
  | true =>
    rw [if_pos rfl]
    simp only [_parse_dt, hs, strptimeYMD_none_on_DMYgen,
      strptimeDMY_gen_skipSec pd pmo ph pmi ps ws y mo d h mi se hws hsp hy
        hmo hmo9 hd hd9 hh hh9 hmi hmi9,
      strptimeDMY_gen_sec pd pmo ph pmi ps ws y mo d h mi se hws hsp hy1 hy
        hmo1 hmo hmo9 hd1 hd hd9 hh hh9 hmi hmi9 hse hse9]

theorem parse_bd_of_stripped_DMYgen (s : String) (pd pmo : Bool) (y mo d : Nat)
    (hs : pyStripList s.data = renderDMYdateGen pd pmo y mo d)
    (hy1 : 1 ≤ y) (hy : y ≤ 9999)
    (hmo1 : 1 ≤ mo) (hmo : mo ≤ 12) (hmo9 : pmo = false → mo ≤ 9)
    (hd1 : 1 ≤ d) (hd : d ≤ daysInMonth y mo) (hd9 : pd = false → d ≤ 9) :
    _parse_birth_date s = some (isoDate y mo d) := by
  simp only [_parse_birth_date, hs,
    strptimeDateDMY_gen pd pmo y mo d hy1 hy hmo1 hmo hmo9 hd1 hd hd9]

theorem parse_bd_of_stripped_YMDgen (s : String) (pmo pd : Bool) (y mo d : Nat)
    (hs : pyStripList s.data = renderYMDdateGen pmo pd y mo d)
    (hy1 : 1 ≤ y) (hy : y ≤ 9999)
    (hmo1 : 1 ≤ mo) (hmo : mo ≤ 12) (hmo9 : pmo = false → mo ≤ 9)
    (hd1 : 1 ≤ d) (hd : d ≤ daysInMonth y mo) (hd9 : pd = false → d ≤ 9) :
    _parse_birth_date s = some (isoDate y mo d) := by
  simp only [_parse_birth_date, hs, strptimeDateDMY_none_on_YMDgen,
    strptimeDateYMD_gen pmo pd y mo d hy1 hy hmo1 hmo hmo9 hd1 hd hd9]

theorem strptimeYMD_sound (b : Bool) (l : List Char) (n : DateTime)
    (h : strptimeYMD b l = some n) : n.valid = true := by
  unfold strptimeYMD at h
  repeat' split at h
  all_goals try exact Option.noConfusion h
  all_goals
    rename_i hcond
    rw [Option.some_inj] at h
    subst h
    rw [Bool.and_eq_true] at hcond
    exact hcond.2

theorem strptimeDMY_sound (b : Bool) (l : List Char) (n : DateTime)
    (h : strptimeDMY b l = some n) : n.valid = true := by
  unfold strptimeDMY at h
  repeat' split at h
  all_goals try exact Option.noConfusion h
  all_goals
    rename_i hcond
    rw [Option.some_inj] at h
    subst h
    rw [Bool.and_eq_true] at hcond
    exact hcond.2

theorem strptimeDateDMY_sound (l : List Char) (r : Nat × Nat × Nat)
    (h : strptimeDateDMY l = some r) :
    (DateTime.mk r.1 r.2.1 r.2.2 0 0 0).valid = true := by
  unfold strptimeDateDMY at h
  repeat' split at h
  all_goals try exact Option.noConfusion h
  all_goals
    rename_i hcond
    rw [Option.some_inj] at h
    subst h
    rw [Bool.and_eq_true] at hcond
    exact hcond.2

theorem strptimeDateYMD_sound (l : List Char) (r : Nat × Nat × Nat)
    (h : strptimeDateYMD l = some r) :
    (DateTime.mk r.1 r.2.1 r.2.2 0 0 0).valid = true := by
  unfold strptimeDateYMD at h
  repeat' split at h
  all_goals try exact Option.noConfusion h
  all_goals
    rename_i hcond
    rw [Option.some_inj] at h
    subst h
    rw [Bool.and_eq_true] at hcond
    exact hcond.2

/-- Everything `_parse_dt` accepts is anchored at the fixed UTC+9 offset and
is calendar-valid. -/
theorem parse_dt_sound (s : String) (aw : AwareDT) (h : _parse_dt s = some aw) :
    aw.offsetMinutes = yakutskOffsetMinutes ∧ aw.naive.valid = true := by
  simp only [_parse_dt] at h
  repeat' split at h
  all_goals try exact Option.noConfusion h
  all_goals
    rename_i heq
    rw [Option.some_inj] at h
    subst h
    first
      | exact ⟨rfl, strptimeYMD_sound _ _ _ heq⟩
      | exact ⟨rfl, strptimeDMY_sound _ _ _ heq⟩

/-- Everything `_parse_birth_date` accepts is the padded ISO rendering of a
calendar-valid date. -/
theorem parse_bd_sound (s : String) (r : String) (h : _parse_birth_date s = some r) :
    ∃ y mo d, (DateTime.mk y mo d 0 0 0).valid = true ∧ r = isoDate y mo d := by
  simp only [_parse_birth_date] at h
  repeat' split at h
  all_goals try exact Option.noConfusion h
  all_goals
    rename_i heq
    rw [Option.some_inj] at h
    subst h
    first
      | exact ⟨_, _, _, strptimeDateDMY_sound _ _ heq, rfl⟩
      | exact ⟨_, _, _, strptimeDateYMD_sound _ _ heq, rfl⟩

/-! ## Final handler and link reduction lemmas -/

theorem ask_time_past (c : Ctx) (db : DB) (scratch : Option String) (text : String)
    (aw : AwareDT) (hparse : _parse_dt text = some aw)
    (hlt : dtLt aw.naive c.nowDT = true) :
    ask_time c db scratch text = ⟨[Reply.pastDT], ConvState.askTime, scratch, db, false⟩ := by
  rw [ask_time_parsed c db scratch text aw hparse, if_pos hlt]

/-- A fully-bound, future-dated booking turn aborts at the raising store write:
no reply, `user_data` kept, store unchanged. -/
theorem ask_time_booking_aborts (c : Ctx) (db : DB) (scratch : Option String) (text : String)
    (aw : AwareDT) (r : Identity) (pid : Nat)
    (hparse : _parse_dt text = some aw) (hlt : dtLt aw.naive c.nowDT = false)
    (hup : c.dbUp = true) (hid : get_identity db c.tg = some r)
    (hpid : r.patient_id = some pid) (h0 : pid ≠ 0) :
    ask_time c db scratch text = ⟨[], ConvState.idle, scratch, db, true⟩ := by
  rw [ask_time_parsed c db scratch text aw hparse, if_neg (by simp [hlt]),
    if_neg (by simp [hup]), hid]
  simp only []
  rw [hpid]
  simp only []
  rw [if_neg (by simp [h0])]
  rfl

theorem link_update_row (db : DB) (tg : Nat) (u : Option String) (pass bd : String) (now : Nat)
    (p : Patient) (r1 : Identity)
    (hf : db.patients.find? (fun pt => pt.passport == pyStrip pass && pt.birth_date == bd) = some p)
    (hr : db.identities.find? (fun x => x.tg_id == tg) = some r1) :
    get_identity (link_patient_by_passport_and_birthdate db tg u pass bd now).2 tg =
      some { r1 with patient_id := some p.id, user_id := none,
                     telegram_username := u, verified_at := some now } := by
  have hcond0 := List.find?_some hr
  have hcond : (r1.tg_id == tg) = true := hcond0
  have hany : db.identities.any (fun x => x.tg_id == tg) = true := by
    rw [List.any_eq_true]
    exact ⟨r1, List.mem_of_find?_eq_some hr, hcond⟩
  simp only [get_identity, link_patient_by_passport_and_birthdate, hf, hany, if_true]
  rw [find?_map_of_pred _ _ _ (fun a => by
    by_cases hc : (a.tg_id == tg) = true <;> simp [hc]), hr, Option.map_some']
  rw [if_pos hcond]

theorem link_identities_ok (db : DB) (tg : Nat) (u : Option String) (pass bd : String)
    (now : Nat) (hok : ∀ r ∈ db.identities, identityRowOk r = true) :
    ∀ r ∈ (link_patient_by_passport_and_birthdate db tg u pass bd now).2.identities,
      identityRowOk r = true := by
  intro r hr
  cases hf : db.patients.find? (fun pt => pt.passport == pyStrip pass && pt.birth_date == bd) with
  | none =>
    rw [show (link_patient_by_passport_and_birthdate db tg u pass bd now).2 = db from by
      simp only [link_patient_by_passport_and_birthdate, hf]] at hr
    exact hok r hr
  | some q =>
    by_cases hany : db.identities.any (fun x => x.tg_id == tg) = true
    · rw [show (link_patient_by_passport_and_birthdate db tg u pass bd now).2.identities =
        db.identities.map (fun x => if x.tg_id == tg then
          { x with patient_id := some q.id, user_id := none,
                   telegram_username := u, verified_at := some now } else x) from by
        simp only [link_patient_by_passport_and_birthdate, hf, hany, if_true]] at hr
      obtain ⟨a, ha, rfl⟩ := List.mem_map.1 hr
      by_cases hc : (a.tg_id == tg) = true
      · rw [if_pos hc]; rfl
      · rw [if_neg hc]; exact hok a ha
    · rw [show (link_patient_by_passport_and_birthdate db tg u pass bd now).2.identities =
        db.identities ++ [{ tg_id := tg, patient_id := some q.id, user_id := none,
                            telegram_username := u, verified_at := some now,
                            created_at := now }] from by
        simp only [link_patient_by_passport_and_birthdate, hf]
        rw [if_neg hany]] at hr
      rcases List.mem_append.1 hr with hmem | hmem
      · exact hok r hmem
      · rw [List.mem_singleton.1 hmem]; rfl

theorem link_idCount (db : DB) (tg : Nat) (u : Option String) (pass bd : String)
    (now : Nat) (huniq : ∀ t, idCount db t ≤ 1) :
    ∀ t, idCount (link_patient_by_passport_and_birthdate db tg u pass bd now).2 t ≤ 1 := by
  intro t
  cases hf : db.patients.find? (fun pt => pt.passport == pyStrip pass && pt.birth_date == bd) with
  | none =>
    rw [show (link_patient_by_passport_and_birthdate db tg u pass bd now).2 = db from by
      simp only [link_patient_by_passport_and_birthdate, hf]]
    exact huniq t
  | some q =>
    by_cases hany : db.identities.any (fun x => x.tg_id == tg) = true
    · unfold idCount
      rw [show (link_patient_by_passport_and_birthdate db tg u pass bd now).2.identities =
        db.identities.map (fun x => if x.tg_id == tg then
          { x with patient_id := some q.id, user_id := none,
                   telegram_username := u, verified_at := some now } else x) from by
        simp only [link_patient_by_passport_and_birthdate, hf, hany, if_true]]
      rw [length_filter_map_of_pred _ _ _ (fun a => by
        by_cases hc : (a.tg_id == tg) = true <;> simp [hc])]
      exact huniq t
    · unfold idCount
      rw [show (link_patient_by_passport_and_birthdate db tg u pass bd now).2.identities =
        db.identities ++ [{ tg_id := tg, patient_id := some q.id, user_id := none,
                            telegram_username := u, verified_at := some now,
                            created_at := now }] from by
        simp only [link_patient_by_passport_and_birthdate, hf]
        rw [if_neg hany]]
      rw [List.filter_append, List.length_append]
      by_cases htg : t = tg
      · subst htg
        rw [List.filter_eq_nil_iff.2 (fun a ha hq => by
          rw [List.any_eq_true] at hany
          exact hany ⟨a, ha, hq⟩)]
        simp
      · rw [show (([(⟨tg, some q.id, none, u, some now, now⟩ : Identity)]).filter
            (fun x => x.tg_id == t)) = [] from by
          simp
          exact fun hh => htg hh.symm]
        simpa using huniq t

/-! ## Concrete fixtures for witnesses and counterexamples -/

/-- An empty store. -/
def dbEmpty : DB := ⟨[], [], []⟩

/-- A store holding one patient (id 7) and no bindings. -/
def dbPat : DB := ⟨[⟨7, "Ivanov I.I.", "1234 567890", "1999-02-25"⟩], [], []⟩

/-- A store with patient 7 bound to chat user 1. -/
def dbBound : DB :=
  ⟨[⟨7, "Ivanov I.I.", "1234 567890", "1999-02-25"⟩],
   [⟨1, some 7, none, some "ivan", some 3, 3⟩], []⟩

/-- A turn context with the store reachable, chat user 1, the clock at
2026-01-01 00:00 Yakutsk time. -/
def ctxUp : Ctx := ⟨true, 1, some "ivan", ⟨2026, 1, 1, 0, 0, 0⟩, 10⟩

/-- The same turn context with the store unreachable. -/
def ctxDown : Ctx := ⟨false, 1, some "ivan", ⟨2026, 1, 1, 0, 0, 0⟩, 10⟩

/-! ## Claims -/

/-- C1 (code bug): the claimed behaviour — an atomic insert-or-replace keyed by
`patient_id` that keeps at most one row per patient and overwrites the existing
row in place on a repeat call — is exactly what the
`INSERT ... ON CONFLICT (patient_id) DO UPDATE` statement and its own docstring
intend, but the conflict target cannot use the schema's partial unique index
(its `WHERE patient_id IS NOT NULL` predicate is not repeated in the target),
so every call raises the 42P10 arbiter error at plan time and no appointment
row is ever inserted, replaced or overwritten. -/
theorem C1_upsert_keyed_by_patient (db : DB) (p tg now : Nat) (fio iso : String) :
    upsert_appointment_for_patient db p tg fio iso now =
      Except.error PgError.onConflictNoArbiter ∧
    ∀ db1, upsert_appointment_for_patient db p tg fio iso now ≠ Except.ok db1 :=
  ⟨rfl, fun db1 h => Except.noConfusion h⟩

/-- C2: a passport+birthdate pair matching no patient makes `link` return the
not-found outcome with no write at all: the whole store (in particular the
identity table, hence `get_identity`) is unchanged. -/
theorem C2_link_not_found_no_write (db : DB) (tg : Nat) (u : Option String)
    (pass bd : String) (now : Nat)
    (h : ∀ pt ∈ db.patients, ¬(pt.passport = pyStrip pass ∧ pt.birth_date = bd)) :
    link_patient_by_passport_and_birthdate db tg u pass bd now = (none, db) ∧
    ∀ t, get_identity (link_patient_by_passport_and_birthdate db tg u pass bd now).2 t =
      get_identity db t := by
  have hf : db.patients.find?
      (fun pt => pt.passport == pyStrip pass && pt.birth_date == bd) = none :=
    List.find?_eq_none.2 (fun pt hpt => by
      simp only [Bool.and_eq_true, beq_iff_eq]
      intro hc
      exact h pt hpt ⟨hc.1, hc.2⟩)
  have he : link_patient_by_passport_and_birthdate db tg u pass bd now = (none, db) := by
    simp only [link_patient_by_passport_and_birthdate, hf]
  exact ⟨he, fun t => by rw [he]⟩

theorem C2_link_not_found_no_write_witness :
    link_patient_by_passport_and_birthdate dbPat 1 (some "ivan") "9999 000000" "1999-02-25" 5 =
      (none, dbPat) :=
  (C2_link_not_found_no_write dbPat 1 (some "ivan") "9999 000000" "1999-02-25" 5
    (by decide)).1

/-- C3 (amended): in `ASK_TIME`, an input parsing strictly before the clock
gets the past-time re-prompt, no store write, and the state stays `ASK_TIME`;
an input parsing at or after the clock never reaches the claimed success —
even with the store reachable and the stored identity carrying a nonzero
patient id, the booking write raises its ON CONFLICT arbiter error, so the
turn aborts with no reply, no store change, and the conversation state
effectively still `ASK_TIME` (and when the binding is missing or empty the
handler instead replies lost-binding and ends the flow without writing). -/
theorem C3_ask_time_time_gate (c : Ctx) (db : DB) (scratch : Option String) (text : String)
    (aw : AwareDT) (hparse : _parse_dt text = some aw) :
    (dtLt aw.naive c.nowDT = true →
      ask_time c db scratch text = ⟨[Reply.pastDT], ConvState.askTime, scratch, db, false⟩) ∧
    (∀ r pid, dtLt aw.naive c.nowDT = false → c.dbUp = true →
      get_identity db c.tg = some r → r.patient_id = some pid → pid ≠ 0 →
      ask_time c db scratch text = ⟨[], ConvState.idle, scratch, db, true⟩ ∧
      effectiveState ConvState.askTime (ask_time c db scratch text) = ConvState.askTime) :=
  ⟨fun hlt => ask_time_past c db scratch text aw hparse hlt,
   fun r pid hlt hup hid hpid h0 => by
     have he := ask_time_booking_aborts c db scratch text aw r pid hparse hlt hup hid hpid h0
     exact ⟨he, by rw [he]; rfl⟩⟩

/-- C3 counterexample: `"2100-01-01 10:00"` parses to an instant after the
clock and the chat user is bound to patient 7, yet the `ASK_TIME` handler
performs no appointment-store write and sends no success reply: the booking
INSERT raises and the turn aborts — the claim's "calls upsert_for_patient and
returns to IDLE with a success reply" fails. -/
theorem C3_counterexample :
    _parse_dt "2100-01-01 10:00" = some ⟨⟨2100, 1, 1, 10, 0, 0⟩, 540⟩ ∧
    dtLt (DateTime.mk 2100 1 1 10 0 0) ctxUp.nowDT = false ∧
    ask_time ctxUp dbBound none "2100-01-01 10:00" =
      ⟨[], ConvState.idle, none, dbBound, true⟩ ∧
    (ask_time ctxUp dbBound none "2100-01-01 10:00").db.appointments = [] := by
  exact ⟨by decide, by decide, by decide, by decide⟩

theorem C3_ask_time_time_gate_witness :
    ask_time ctxUp dbBound none "2099-12-31 23:59" =
      ⟨[], ConvState.idle, none, dbBound, true⟩ ∧
    effectiveState ConvState.askTime (ask_time ctxUp dbBound none "2099-12-31 23:59") =
      ConvState.askTime :=
  (C3_ask_time_time_gate ctxUp dbBound none "2099-12-31 23:59"
      ⟨⟨2099, 12, 31, 23, 59, 0⟩, 540⟩ (by decide)).2
    ⟨1, some 7, none, some "ivan", some 3, 3⟩ 7 (by decide) rfl (by decide) rfl (by decide)

/-- C4: `link` is idempotent after success — re-running with the same inputs
returns the same patient, creates no second identity row for the chat user,
and leaves the identity row identical except for the refreshed `verified_at`
timestamp. -/
theorem C4_link_idempotent (db : DB) (tg : Nat) (u : Option String) (pass bd : String)
    (t1 t2 : Nat) (p : Patient)
    (h1 : (link_patient_by_passport_and_birthdate db tg u pass bd t1).1 = some p) :
    (link_patient_by_passport_and_birthdate
        (link_patient_by_passport_and_birthdate db tg u pass bd t1).2 tg u pass bd t2).1 =
      some p ∧
    (link_patient_by_passport_and_birthdate
        (link_patient_by_passport_and_birthdate db tg u pass bd t1).2
        tg u pass bd t2).2.identities.length =
      (link_patient_by_passport_and_birthdate db tg u pass bd t1).2.identities.length ∧
    ∃ r1, get_identity (link_patient_by_passport_and_birthdate db tg u pass bd t1).2 tg =
        some r1 ∧
      r1.patient_id = some p.id ∧ r1.verified_at = some t1 ∧
      get_identity (link_patient_by_passport_and_birthdate
          (link_patient_by_passport_and_birthdate db tg u pass bd t1).2 tg u pass bd t2).2 tg =
        some { r1 with verified_at := some t2 } := by
  set db1 := (link_patient_by_passport_and_birthdate db tg u pass bd t1).2 with hdb1
  obtain ⟨ca, hr1⟩ := link_success_row db tg u pass bd t1 p h1
  rw [← hdb1] at hr1
  have hr1' : db1.identities.find? (fun x => x.tg_id == tg) =
      some ⟨tg, some p.id, none, u, some t1, ca⟩ := hr1
  have hf1 : db1.patients.find?
      (fun pt => pt.passport == pyStrip pass && pt.birth_date == bd) = some p := by
    rw [hdb1, link_patients_unchanged]
    exact link_found db tg u pass bd t1 p h1
  have hany : db1.identities.any (fun x => x.tg_id == tg) = true := by
    rw [List.any_eq_true]
    have hmem := List.mem_of_find?_eq_some hr1'
    have hp := List.find?_some hr1'
    exact ⟨_, hmem, hp⟩
  refine ⟨?_, ?_, ⟨tg, some p.id, none, u, some t1, ca⟩, hr1, rfl, rfl, ?_⟩
  · simp only [link_patient_by_passport_and_birthdate, hf1]
  · simp only [link_patient_by_passport_and_birthdate, hf1, hany, if_true]
    simp
  · exact link_update_row db1 tg u pass bd t2 p _ hf1 hr1'

theorem C4_link_idempotent_witness :
    (link_patient_by_passport_and_birthdate
      (link_patient_by_passport_and_birthdate dbPat 1 (some "ivan") "1234 567890" "1999-02-25" 5).2
      1 (some "ivan") "1234 567890" "1999-02-25" 6).1 =
      some ⟨7, "Ivanov I.I.", "1234 567890", "1999-02-25"⟩ :=
  (C4_link_idempotent dbPat 1 (some "ivan") "1234 567890" "1999-02-25" 5 6
    ⟨7, "Ivanov I.I.", "1234 567890", "1999-02-25"⟩ (by decide)).1

/-- C5: the identity table invariants — every row has exactly one of
`patient_id`/`user_id` set and at most one row exists per `tg_id` — are
preserved by `link`, and a successful link leaves the row for the chat user
with `patient_id` set, `user_id` cleared, and `verified_at` stamped. -/
theorem C5_identity_invariant (db : DB) (tg : Nat) (u : Option String) (pass bd : String)
    (now : Nat)
    (hok : ∀ r ∈ db.identities, identityRowOk r = true) (huniq : ∀ t, idCount db t ≤ 1) :
    (∀ r ∈ (link_patient_by_passport_and_birthdate db tg u pass bd now).2.identities,
       identityRowOk r = true) ∧
    (∀ t, idCount (link_patient_by_passport_and_birthdate db tg u pass bd now).2 t ≤ 1) ∧
    (∀ p, (link_patient_by_passport_and_birthdate db tg u pass bd now).1 = some p →
       ∃ r, get_identity (link_patient_by_passport_and_birthdate db tg u pass bd now).2 tg =
           some r ∧
         r.patient_id = some p.id ∧ r.user_id = none ∧ r.verified_at = some now) := by
  refine ⟨link_identities_ok db tg u pass bd now hok, link_idCount db tg u pass bd now huniq, ?_⟩
  intro p hp
  obtain ⟨ca, hr⟩ := link_success_row db tg u pass bd now p hp
  exact ⟨_, hr, rfl, rfl, rfl⟩

theorem C5_identity_invariant_witness :
    ∃ r, get_identity (link_patient_by_passport_and_birthdate dbPat 1 (some "ivan")
        "1234 567890" "1999-02-25" 5).2 1 = some r ∧
      r.patient_id = some 7 ∧ r.user_id = none ∧ r.verified_at = some 5 :=
  (C5_identity_invariant dbPat 1 (some "ivan") "1234 567890" "1999-02-25" 5
    (fun r hr => by simp [dbPat] at hr)
    (fun t => by simp [idCount, dbPat])).2.2
    ⟨7, "Ivanov I.I.", "1234 567890", "1999-02-25"⟩ (by decide)

/-- C6 (amended): a turn of `ask_time` or `ask_bdate` that does not raise
always sends a reply, but persistence errors are not caught by the handlers —
neither an unreachable store nor the booking INSERT's unconditional ON
CONFLICT arbiter error, which fails every booking write even with the store
reachable — so such a turn aborts with no reply at all; the store is left
untouched and the conversation state unchanged, so the user can retry, but
the error surfaces only in the framework's log — not as the apologetic chat
reply the claim describes. -/
theorem C6_turn_reply_discipline (c : Ctx) (db : DB) (scratch : Option String) (text : String) :
    turnOk db (ask_time c db scratch text) ∧ turnOk db (ask_bdate c db scratch text) ∧
    (∀ (s0 : ConvState) (r : TurnResult), r.errored = true → effectiveState s0 r = s0) :=
  ⟨turnOk_ask_time c db scratch text, turnOk_ask_bdate c db scratch text,
   fun s0 r hr => by simp [effectiveState, hr]⟩

/-- C6 counterexample: even with the store reachable and the user fully
bound, a future-dated booking turn in `ASK_TIME` raises inside the booking
INSERT (its ON CONFLICT arbiter cannot be inferred) — the turn errors and the
user receives no reply at all, contradicting "every error produces a reply in
the same turn ... surfaced as a generic apologetic reply". -/
theorem C6_counterexample :
    ctxUp.dbUp = true ∧
    (ask_time ctxUp dbBound none "2101-01-02 08:00").errored = true ∧
    (ask_time ctxUp dbBound none "2101-01-02 08:00").replies = [] := by
  exact ⟨rfl, by decide, by decide⟩

theorem C6_turn_reply_discipline_witness :
    (ask_time ctxUp dbBound none "2100-06-15 12:00").replies = [] ∧
    (ask_time ctxUp dbBound none "2100-06-15 12:00").db = dbBound ∧
    effectiveState ConvState.askTime (ask_time ctxUp dbBound none "2100-06-15 12:00") =
      ConvState.askTime := by
  have h := C6_turn_reply_discipline ctxUp dbBound none "2100-06-15 12:00"
  have herr : (ask_time ctxUp dbBound none "2100-06-15 12:00").errored = true := by decide
  exact ⟨(h.1.2 herr).1, (h.1.2 herr).2, h.2.2 ConvState.askTime _ herr⟩

/-- C7 (amended): the two parsers are total by construction; `_parse_dt`
anchors everything it accepts at the fixed UTC+9 offset with calendar-valid
fields, and it accepts the whole lenient family of the four formats — either
date order, with or without the `:SS` part, each of month, day, hour, minute
and second independently zero-padded or bare (the year is exactly four
digits), and any nonempty whitespace run between date and time;
`_parse_birth_date` likewise accepts the `DD.MM.YYYY` and `YYYY-MM-DD`
families with independently bare-or-padded day and month and returns the
zero-padded ISO date.  The strictly-literal format reading of the claim is
refuted by the counterexample. -/
theorem C7_parser_formats :
    (∀ s aw, _parse_dt s = some aw →
       aw.offsetMinutes = yakutskOffsetMinutes ∧ aw.naive.valid = true) ∧
    (∀ (s : String) (pmo pd ph pmi ps : Bool) (ws : List Char) (withSec : Bool)
       (y mo d h mi se : Nat),
       pyStripList s.data = renderYMDgen pmo pd ph pmi ps ws withSec y mo d h mi se →
       ws ≠ [] → (∀ ch ∈ ws, isPySpace ch = true) →
       1 ≤ y → y ≤ 9999 → 1 ≤ mo → mo ≤ 12 → (pmo = false → mo ≤ 9) →
       1 ≤ d → d ≤ daysInMonth y mo → (pd = false → d ≤ 9) →
       h ≤ 23 → (ph = false → h ≤ 9) → mi ≤ 59 → (pmi = false → mi ≤ 9) →
       se ≤ 59 → (ps = false → se ≤ 9) →
       _parse_dt s =
         some ⟨⟨y, mo, d, h, mi, if withSec then se else 0⟩, yakutskOffsetMinutes⟩) ∧
    (∀ (s : String) (pd pmo ph pmi ps : Bool) (ws : List Char) (withSec : Bool)
       (y mo d h mi se : Nat),
       pyStripList s.data = renderDMYgen pd pmo ph pmi ps ws withSec y mo d h mi se →
       ws ≠ [] → (∀ ch ∈ ws, isPySpace ch = true) →
       1 ≤ y → y ≤ 9999 → 1 ≤ mo → mo ≤ 12 → (pmo = false → mo ≤ 9) →
       1 ≤ d → d ≤ daysInMonth y mo → (pd = false → d ≤ 9) →
       h ≤ 23 → (ph = false → h ≤ 9) → mi ≤ 59 → (pmi = false → mi ≤ 9) →
       se ≤ 59 → (ps = false → se ≤ 9) →
       _parse_dt s =
         some ⟨⟨y, mo, d, h, mi, if withSec then se else 0⟩, yakutskOffsetMinutes⟩) ∧
    (∀ s r, _parse_birth_date s = some r →
       ∃ y mo d, (DateTime.mk y mo d 0 0 0).valid = true ∧ r = isoDate y mo d) ∧
    (∀ (s : String) (pd pmo : Bool) (y mo d : Nat),
       pyStripList s.data = renderDMYdateGen pd pmo y mo d →
       1 ≤ y → y ≤ 9999 → 1 ≤ mo → mo ≤ 12 → (pmo = false → mo ≤ 9) →
       1 ≤ d → d ≤ daysInMonth y mo → (pd = false → d ≤ 9) →
       _parse_birth_date s = some (isoDate y mo d)) ∧
    (∀ (s : String) (pmo pd : Bool) (y mo d : Nat),
       pyStripList s.data = renderYMDdateGen pmo pd y mo d →
       1 ≤ y → y ≤ 9999 → 1 ≤ mo → mo ≤ 12 → (pmo = false → mo ≤ 9) →
       1 ≤ d → d ≤ daysInMonth y mo → (pd = false → d ≤ 9) →
       _parse_birth_date s = some (isoDate y mo d)) :=
  ⟨parse_dt_sound, parse_dt_of_stripped_YMDgen, parse_dt_of_stripped_DMYgen,
   parse_bd_sound, parse_bd_of_stripped_DMYgen, parse_bd_of_stripped_YMDgen⟩

/-- C7 counterexample: `"2026-2-5 14:30"` does not match any of the four
literal formats read strictly (two-digit month and day), yet `_parse_dt`
accepts it — `strptime` pads leniently, so "returns an instant exactly when
the input matches one of the four literal formats" is false as stated. -/
theorem C7_counterexample :
    _parse_dt "2026-2-5 14:30" = some ⟨⟨2026, 2, 5, 14, 30, 0⟩, 540⟩ ∧
    specStrictMatchDT "2026-2-5 14:30" = false := by
  exact ⟨by decide, by decide⟩

theorem C7_parser_formats_witness :
    _parse_dt "25.2.2026  9:05:07" = some ⟨⟨2026, 2, 25, 9, 5, 7⟩, yakutskOffsetMinutes⟩ ∧
    _parse_birth_date "1999-2-5" = some (isoDate 1999 2 5) := by
  have h := C7_parser_formats
  exact ⟨h.2.2.1 "25.2.2026  9:05:07" true false false true true [' ', ' '] true
      2026 2 25 9 5 7 (by decide) (by decide) (by decide) (by decide) (by decide)
      (by decide) (by decide) (by decide) (by decide) (by decide) (by decide) (by decide)
      (by decide) (by decide) (by decide) (by decide) (by decide),
    h.2.2.2.2.2 "1999-2-5" false false 1999 2 5 (by decide) (by decide) (by decide)
      (by decide) (by decide) (by decide) (by decide) (by decide) (by decide)⟩

/-- C8 (amended): `my` is a read-only command — given a reachable store, a
chat user without a binding (or whose binding has no truthy patient id) gets
the redirect-to-link reply with only the identity-store read attempted and no
appointment-store access, while a bound user gets the appointment looked up
through the store join and rendered, or the no-appointment reply.  (The claim
said the unbound path attempts *no* store access; the identity store is
necessarily read first — see the counterexample.) -/
theorem C8_my_pure_read (c : Ctx) (db : DB) (hup : c.dbUp = true) :
    (get_identity db c.tg = none →
       my c db = ⟨[Reply.myNoIdentity], [Access.identRead c.tg], false⟩) ∧
    (∀ r, get_identity db c.tg = some r → truthyOpt r.patient_id = false →
       my c db = ⟨[Reply.myNoIdentity], [Access.identRead c.tg], false⟩) ∧
    (∀ r, get_identity db c.tg = some r → truthyOpt r.patient_id = true →
       get_my_appointment db c.tg = none →
       my c db = ⟨[Reply.myNoAppt], [Access.identRead c.tg, Access.apptRead c.tg], false⟩) ∧
    (∀ r row, get_identity db c.tg = some r → truthyOpt r.patient_id = true →
       get_my_appointment db c.tg = some row →
       my c db = ⟨[Reply.myAppt row.fio row.appointment],
                  [Access.identRead c.tg, Access.apptRead c.tg], false⟩) := by
  refine ⟨?_, ?_, ?_, ?_⟩
  · intro hg
    simp only [my, hup, Bool.not_true, Bool.false_eq_true, if_false, hg]
  · intro r hg ht
    simp only [my, hup, Bool.not_true, Bool.false_eq_true, if_false, hg, ht,
      Bool.not_false, if_true]
  · intro r hg ht ha
    simp only [my, hup, Bool.not_true, Bool.false_eq_true, if_false, hg, ht, ha]
  · intro r row hg ht ha
    simp only [my, hup, Bool.not_true, Bool.false_eq_true, if_false, hg, ht, ha]

/-- C8 counterexample: with no identity binding at all, `my` still performs a
store access — the identity-store read — so "replies ... and attempts no
store access" is false as stated (no appointment-store access happens,
though). -/
theorem C8_counterexample :
    (my ctxUp dbEmpty).replies = [Reply.myNoIdentity] ∧
    (my ctxUp dbEmpty).accesses = [Access.identRead 1] ∧
    (my ctxUp dbEmpty).accesses ≠ [] := by
  exact ⟨by decide, by decide, by decide⟩

theorem C8_my_pure_read_witness :
    my ctxUp dbBound = ⟨[Reply.myNoAppt], [Access.identRead 1, Access.apptRead 1], false⟩ :=
  (C8_my_pure_read ctxUp dbBound rfl).2.2.1
    ⟨1, some 7, none, some "ivan", some 3, 3⟩ (by decide) (by decide) (by decide)

/-- C9 (code bug): the engine does derive the synthetic placeholder name
`"PATIENT#" ++ <patient id digits>` (never the patient's real name) and passes
it as the booking write's name snapshot, but that write raises on every call,
so the snapshot is never written to any appointment row: a fully-bound,
future-dated booking turn aborts with the appointments table untouched and the
placeholder stored nowhere. -/
theorem C9_fio_placeholder :
    upsert_appointment_for_patient dbBound 7 1 ("PATIENT#" ++ Nat.repr 7)
        (isoformatAware ⟨⟨2100, 2, 25, 9, 15, 0⟩, 540⟩) 10 =
      Except.error PgError.onConflictNoArbiter ∧
    (ask_time ctxUp dbBound none "25.02.2100 09:15").errored = true ∧
    (ask_time ctxUp dbBound none "25.02.2100 09:15").replies = [] ∧
    (ask_time ctxUp dbBound none "25.02.2100 09:15").db.appointments = [] :=
  ⟨rfl, by decide, by decide, by decide⟩

/-- C10: in each awaiting state a text equal to a menu-button label is routed
to the corresponding command handler rather than treated as field input — in
particular the cancel label mid-flow ends the flow clearing the scratch, and
the book label mid-link runs the booking entry logic. -/
theorem C10_buttons_route (c : Ctx) (db : DB) (scratch : Option String) (t : String)
    (h : pyStrip t = BTN_BOOK ∨ pyStrip t = BTN_MY ∨ pyStrip t = BTN_LINK ∨
         pyStrip t = BTN_CANCEL) :
    ask_passport c db scratch t = _route_button c db scratch (pyStrip t) ∧
    ask_bdate c db scratch t = _route_button c db scratch (pyStrip t) ∧
    ask_time c db scratch t = _route_button c db scratch (pyStrip t) ∧
    (pyStrip t = BTN_CANCEL →
      ask_passport c db scratch t = ⟨[Reply.cancelAck], ConvState.idle, none, db, false⟩) ∧
    (pyStrip t = BTN_BOOK → ask_bdate c db scratch t = book c db scratch) := by
  have hsome : (BUTTON_TO_CMD (pyStrip t)).isSome = true := by
    rcases h with h | h | h | h <;> rw [h] <;> decide
  have h1 : ask_passport c db scratch t = _route_button c db scratch (pyStrip t) := by
    simp only [ask_passport, hsome, if_true]
  have h2 : ask_bdate c db scratch t = _route_button c db scratch (pyStrip t) := by
    simp only [ask_bdate, hsome, if_true]
  have h3 : ask_time c db scratch t = _route_button c db scratch (pyStrip t) := by
    simp only [ask_time, hsome, if_true]
  refine ⟨h1, h2, h3, ?_, ?_⟩
  · intro hc
    rw [h1, hc]
    simp only [_route_button]
    rw [if_neg (by decide), if_neg (by decide), if_neg (by decide), if_pos (by decide)]
    rfl
  · intro hb
    rw [h2, hb]
    simp only [_route_button]
    rw [if_pos (by decide)]

theorem C10_buttons_route_witness :
    ask_passport ctxUp dbPat (some "1234 567890") BTN_CANCEL =
      ⟨[Reply.cancelAck], ConvState.idle, none, dbPat, false⟩ :=
  (C10_buttons_route ctxUp dbPat (some "1234 567890") BTN_CANCEL
    (by right; right; right; decide)).2.2.2.1 (by decide)
